import Mathlib

/-!
# krakend-mw / relyingparty: the per-endpoint authorization gate

A shallow embedding of `relyingparty/router.go`.

* Go strings are modelled by Lean `String`; `len(s) == 0` is the byte length test.
* Go maps keyed by strings (`http.Header`, `jwt.MapClaims`, the JOSE header of a token)
  are modelled by functions `String → Option _`, `none` standing for a missing key.
* A handler run is modelled by the ordered list of calls it makes to its collaborators
  (logger, `jwt.Parse`, `c.AbortWithStatusJSON`, `Header.Set`, `next`) together with the
  request as the gate leaves it.  A Go runtime panic is an event of its own that ends the run.
-/

namespace relyingparty

/-! ## Constants of `router.go` -/

def namespace_ : String := "github.com/jordelca/krakend-mw/relyingparty"
def HeaderAuthorization : String := "Authorization"
def HeaderUserID : String := "User-Id"
def TokenType : String := "Bearer"

def StatusUnauthorized : Nat := 401
def StatusForbidden : Nat := 403

/-! ## Values of type `interface{}` -/

/-- A non-nil Go value held in an `interface{}`: either a `string`, or a value of some other
dynamic type, kept as the text `fmt` prints for it under `%v`.  The gate only ever
type-asserts such a value to `string` or formats it with `%v`. -/
inductive AnyValue where
  | str (s : String)
  | other (rendered : String)
  deriving DecidableEq, Repr

/-- The type assertion `v.(string)` in its comma-ok form; `none` is the nil interface
(what indexing a map at a missing key gives). -/
def assertString : Option AnyValue → Option String
  | some (.str s) => some s
  | _ => none

/-- The text `fmt` produces for the verb `%v`. -/
def sprintV : Option AnyValue → String
  | none => "<nil>"
  | some (.str s) => s
  | some (.other r) => r

/-! ## `net/http` headers and the request -/

/-- The map `http.Header`, from canonical header name to the list of its values. -/
abbrev Header := String → Option (List String)

/-- `Header.Get`: the first value stored under the key, `""` when there is none.  Both keys
used by this package are already in canonical MIME form. -/
def Header.Get (h : Header) (key : String) : String :=
  match h key with
  | some (v :: _) => v
  | _ => ""

/-- `Header.Set`: the key now holds the single value given. -/
def Header.Set (h : Header) (key value : String) : Header :=
  fun k => if k = key then some [value] else h k

/-- The part of `gin.Context` the gate reads and writes: the headers of `c.Request`. -/
structure Context where
  Header : Header

/-- `c.GetHeader(key)`. -/
def Context.GetHeader (c : Context) (key : String) : String :=
  Header.Get c.Header key

/-- `c.Request.Header.Set(key, value)`. -/
def Context.SetHeader (c : Context) (key value : String) : Context :=
  { c with Header := Header.Set c.Header key value }

/-! ## `strings.Split` -/

/-- The pieces of a character list between the occurrences of `sep`; there is always one piece
more than there are separators. -/
def splitChars (sep : Char) : List Char → List (List Char)
  | [] => [[]]
  | c :: cs =>
    if c = sep then [] :: splitChars sep cs
    else
      match splitChars sep cs with
      | [] => [[c]]
      | p :: ps => (c :: p) :: ps

/-- `strings.Split(s, sep)` for a separator of one character, the only way the gate calls it. -/
def stringsSplit (s : String) (sep : Char) : List String :=
  (splitChars sep s.data).map String.mk

/-! ## `jwt-go` tokens -/

/-- The dynamic type behind the interface `jwt.SigningMethod` of a token; `nil` is the nil
interface. -/
inductive SigningMethod where
  | nil
  | hmac (alg : String)
  | rsa (alg : String)
  | rsaPSS (alg : String)
  | ecdsa (alg : String)
  | none_
  | custom (alg : String)
  deriving DecidableEq, Repr

/-- The assertion `token.Method.(*jwt.SigningMethodHMAC)` succeeds. -/
def SigningMethod.isHMAC : SigningMethod → Bool
  | .hmac _ => true
  | _ => false

/-- The interface `jwt.Claims`: a `jwt.MapClaims`, or anything else (nil included). -/
inductive Claims where
  | mapClaims (m : String → Option AnyValue)
  | otherClaims

/-- The struct `jwt.Token`. -/
structure Token where
  Raw : String
  Method : SigningMethod
  Header : String → Option AnyValue
  Claims : Claims
  Signature : String
  Valid : Bool

/-- What a `jwt.Keyfunc` returns: the pair `(interface{}, error)`, the error kept as its
`Error()` text. -/
structure KeyResult where
  key : Option ByteArray
  err : Option String

abbrev Keyfunc := Token → KeyResult

/-- What `jwt.Parse` returns: the pair `(*jwt.Token, error)`. -/
structure ParseResult where
  token : Option Token
  err : Option String

/-- The verifier `jwt.Parse`, a collaborator of the gate, as it answers during one run.  It
checks the time claims of a token against the clock, so two runs at different times may be
served by different functions of this type. -/
abbrev Verifier := String → Keyfunc → ParseResult

/-! ## Declarations of the package outside `router.go` -/

/-- Modelled from the spec: the type `epConfig` is declared in a file of the package that is
not part of the sources at hand; the gate reads its field `Roles`, the roles allowed on the
endpoint. -/
structure epConfig where
  Roles : List String
  deriving DecidableEq, Repr

/-- Modelled from the spec: the process-wide configuration behind `rp.cfg`, of which the gate
reads the shared secret `TokenSecret`. -/
structure Config where
  TokenSecret : String
  deriving DecidableEq, Repr

/-- Modelled from the spec: the type `RelyingParty`, of which the gate reads `rp.cfg`. -/
structure RelyingParty where
  cfg : Config
  deriving DecidableEq, Repr

/-- Modelled from the spec: the error kinds `invalidToken` and `invalidTokenClaims` that the
gate hands to `newErr`; their declarations are not part of the sources at hand. -/
inductive ErrKind where
  | invalidToken
  | invalidTokenClaims
  deriving DecidableEq, Repr

/-- Modelled from the spec: a response body of the gate, an error object with a kind and a
message.  It is either built by `newErr`, or one of the three package-level values
`invalidUserIDErr`, `invalidUserRoleErr`, `accessDenied`, whose declarations are not part of
the sources at hand and which are therefore kept symbolic. -/
inductive ErrBody where
  | newErr (kind : ErrKind) (message : String)
  | invalidUserIDErr
  | invalidUserRoleErr
  | accessDenied
  deriving DecidableEq, Repr

export ErrKind (invalidToken invalidTokenClaims)
export ErrBody (newErr invalidUserIDErr invalidUserRoleErr accessDenied)

/-! ## Runs of a handler -/

/-- A call made by the gate to one of its collaborators, or a runtime panic. -/
inductive Event where
  /-- A `Warnln` of logrus, with the fields attached by `WithError` / `WithField`. -/
  | warn (fields : List (String × Option String)) (msg : String)
  /-- A call `jwt.Parse(tokenString, keyFunc)`. -/
  | parse (tokenString : String)
  /-- A call `c.AbortWithStatusJSON(status, body)`. -/
  | abort (status : Nat) (body : ErrBody)
  /-- A call `c.Request.Header.Set(key, value)`. -/
  | setHeader (key value : String)
  /-- A call `next(c)` of the wrapped handler, with the request as it stands then. -/
  | next (c : Context)
  /-- A Go runtime panic (nil dereference), which unwinds the handler. -/
  | panic (what : String)

/-- A run of the gate on one request: the calls made, in order, and the request after it. -/
structure Run where
  events : List Event
  request : Context

/-! ## `matchRoles` -/

/-- `matchRoles(userRole, acceptRoles)`: the loop returns at the first equal element. -/
def matchRoles (userRole : String) : List String → Bool
  | [] => false
  | r :: rest => if r = userRole then true else matchRoles userRole rest

/-! ## The gate -/

/-- The key-lookup closure handed to `jwt.Parse` (lines 61 to 66). -/
def keyFunc (rp : RelyingParty) : Keyfunc := fun token =>
  if !token.Method.isHMAC then
    ⟨none, some ("unexpected signing method: " ++ sprintV (token.Header "alg"))⟩
  else
    ⟨some rp.cfg.TokenSecret.toUTF8, none⟩

/-- The handler `newEndpointRelyingPartyMw(cfg, rp)(next)` run on the request `c`, with
`jwtParse` standing for `jwt.Parse`. -/
def newEndpointRelyingPartyMw (jwtParse : Verifier) (cfg : epConfig) (rp : RelyingParty)
    (c : Context) : Run :=
  let userToken := c.GetHeader HeaderAuthorization
  if userToken.utf8ByteSize = 0 then
    ⟨[.warn [] "empty user token",
      .abort StatusUnauthorized (newErr invalidToken "token not exists")], c⟩
  else
    let items := stringsSplit userToken ' '
    if items.length ≠ 2 ∨ items.getD 0 "" ≠ TokenType then
      ⟨[.warn [] "invalid token",
        .abort StatusUnauthorized (newErr invalidToken "token is malformed")], c⟩
    else
      let credential := items.getD 1 ""
      match jwtParse credential (keyFunc rp) with
      | ⟨_, some e⟩ =>
        ⟨[.parse credential, .warn [("error", some e)] "parse token err",
          .abort StatusUnauthorized (newErr invalidToken e)], c⟩
      | ⟨none, none⟩ =>
        -- `token.Claims` on a nil `*jwt.Token`
        ⟨[.parse credential, .panic "nil pointer dereference"], c⟩
      | ⟨some token, none⟩ =>
        match token.Claims, token.Valid with
        | .mapClaims claims, true =>
          match assertString (claims "user_id") with
          | none =>
            ⟨[.parse credential, .warn [] "user id in claims not exist",
              .abort StatusUnauthorized invalidUserIDErr], c⟩
          | some userID =>
            match assertString (claims "user_role") with
            | none =>
              ⟨[.parse credential, .warn [] "user role in claims not exist",
                .abort StatusUnauthorized invalidUserRoleErr], c⟩
            | some userRole =>
              if !matchRoles userRole cfg.Roles then
                ⟨[.parse credential, .warn [("role", some userRole)] "access denied",
                  .abort StatusForbidden accessDenied], c⟩
              else
                let c' := c.SetHeader HeaderUserID userID
                ⟨[.parse credential, .setHeader HeaderUserID userID, .next c'], c'⟩
        | _, _ =>
          -- `err` is nil here: `WithError(nil)` logs, then `err.Error()` dereferences nil
          ⟨[.parse credential, .warn [("error", none)] "claims err",
            .panic "nil pointer dereference"], c⟩

/-! ## `NewHandlerFactory` -/

/-- A `gin.HandlerFunc`, by the run it makes on a request. -/
abbrev HandlerFunc := Context → Run

/-- The handler `newEndpointRelyingPartyMw(cfg, rp)(next)` with `next` made explicit: the run
of the gate and, when the gate ends by calling `next`, the run of `next` on the request it was
called with. -/
def endpointHandler (jwtParse : Verifier) (cfg : epConfig) (rp : RelyingParty)
    (next : HandlerFunc) : HandlerFunc := fun c =>
  let gate := newEndpointRelyingPartyMw jwtParse cfg rp c
  match gate.events.getLast? with
  | some (.next c') =>
    let rest := next c'
    ⟨gate.events ++ rest.events, rest.request⟩
  | _ => gate

/-- The part of `config.EndpointConfig` the factory reads: the map `ExtraConfig`.  A key may
be present with a nil value, hence the two levels of `Option`. -/
structure EndpointConfig where
  ExtraConfig : String → Option (Option AnyValue)

/-- What registering an endpoint gives: the handler returned, and the lines logged by
`Errorln` on the way, each with the text of the error attached by `WithError`. -/
structure Registration where
  handler : HandlerFunc
  errors : List (String × String)

/-- `NewHandlerFactory(next, rp)` applied to an endpoint `remote` and its proxy `p`.
`getEpConfig` is declared in a file of the package that is not part of the sources at hand
and is taken as a parameter: it gives a configuration or an error. -/
def NewHandlerFactory {Proxy : Type} (getEpConfig : Option AnyValue → Except String epConfig)
    (jwtParse : Verifier) (next : EndpointConfig → Proxy → HandlerFunc) (rp : RelyingParty)
    (remote : EndpointConfig) (p : Proxy) : Registration :=
  let handlerFunc := next remote p
  match remote.ExtraConfig namespace_ with
  | none => ⟨handlerFunc, []⟩
  | some eCfg =>
    match getEpConfig eCfg with
    | .error err => ⟨handlerFunc, [("getEpConfig error", err)]⟩
    | .ok cfg => ⟨endpointHandler jwtParse cfg rp handlerFunc, []⟩

/-! ## Sample data

The scenario of the specification: secret `s3cr3t`, allow-list `admin`, `editor`, a user `u1`. -/

def sampleConfig : epConfig := ⟨["admin", "editor"]⟩

def sampleRelyingParty : RelyingParty := ⟨⟨"s3cr3t"⟩⟩

/-- A request whose only header is `Authorization`, when a value is given. -/
def sampleContext (authorization : Option String) : Context :=
  ⟨fun k => if k = "Authorization" then authorization.map (fun v => [v]) else none⟩

def sampleClaims (userID userRole : Option AnyValue) : String → Option AnyValue :=
  fun k => if k = "user_id" then userID else if k = "user_role" then userRole else none

def sampleToken (raw : String) (userID userRole : Option AnyValue) (valid : Bool) : Token :=
  { Raw := raw, Method := .hmac "HS256",
    Header := fun k => if k = "alg" then some (.str "HS256") else none,
    Claims := .mapClaims (sampleClaims userID userRole), Signature := "", Valid := valid }

/-- A verifier given by a table of credentials. -/
def sampleVerifier : Verifier := fun credential _ =>
  if credential = "editor-u1" then
    ⟨some (sampleToken credential (some (.str "u1")) (some (.str "editor")) true), none⟩
  else if credential = "viewer-u1" then
    ⟨some (sampleToken credential (some (.str "u1")) (some (.str "viewer")) true), none⟩
  else if credential = "anonymous-editor" then
    ⟨some (sampleToken credential none (some (.str "editor")) true), none⟩
  else if credential = "u1-numbered" then
    ⟨some (sampleToken credential (some (.str "u1")) (some (.other "7")) true), none⟩
  else if credential = "expired-u1" then
    ⟨some (sampleToken credential (some (.str "u1")) (some (.str "editor")) false),
      some "Token is expired"⟩
  else
    ⟨none, some "token contains an invalid number of segments"⟩

/-- A request that carries, besides its credential, two `User-Id` values of the client's
own. -/
def sampleSpoofedContext : Context :=
  ⟨fun k => if k = "Authorization" then some ["Bearer editor-u1"]
    else if k = "User-Id" then some ["root", "admin"]
    else if k = "Accept" then some ["text/plain"] else none⟩

/-- An endpoint whose extra configuration holds, under the namespace of this package, the
entry given (if any). -/
def sampleEndpoint (entry : Option (Option AnyValue)) : EndpointConfig :=
  ⟨fun k => if k = namespace_ then entry else none⟩

/-- A configuration reader that accepts one block only. -/
def sampleGetEpConfig : Option AnyValue → Except String epConfig
  | some (.other "map[roles:[admin editor]]") => .ok sampleConfig
  | _ => .error "invalid roles"

/-- A base handler factory: the handler logs one line and leaves the request alone. -/
def sampleNext : EndpointConfig → Unit → HandlerFunc :=
  fun _ _ c => ⟨[.warn [] "served"], c⟩

/-- The sample verifier at a reading `now` of the clock, the credential `editor-u1` carrying
the claim `exp = 5`: from that time on `jwt.Parse` returns its token as not valid, with the
error of an expired token. -/
def sampleVerifierAt (now : Nat) : Verifier := fun credential kf =>
  if credential = "editor-u1" ∧ 5 ≤ now then
    ⟨some (sampleToken credential (some (.str "u1")) (some (.str "editor")) false),
      some "Token is expired"⟩
  else sampleVerifier credential kf

/-! ## Byte length and `strings.Split` -/

theorem utf8ByteSize_go_pos (c : Char) (cs : List Char) : 0 < String.utf8ByteSize.go (c :: cs) := by
  simp only [String.utf8ByteSize.go]
  have := Char.utf8Size_pos c
  omega

theorem utf8ByteSize_eq_zero_iff (s : String) : s.utf8ByteSize = 0 ↔ s = "" := by
  cases s with
  | mk l =>
    cases l with
    | nil => simp [String.utf8ByteSize, String.utf8ByteSize.go]
    | cons c cs =>
      have := utf8ByteSize_go_pos c cs
      constructor
      · intro h
        simp only [String.utf8ByteSize] at h
        omega
      · intro h
        have hd := congrArg String.data h
        simp at hd

theorem splitChars_ne_nil (sep : Char) (l : List Char) : splitChars sep l ≠ [] := by
  cases l with
  | nil => simp [splitChars]
  | cons c cs =>
    simp only [splitChars]
    split
    · simp
    · split <;> simp

theorem splitChars_of_not_mem (sep : Char) (l : List Char) (h : sep ∉ l) :
    splitChars sep l = [l] := by
  induction l with
  | nil => rfl
  | cons c cs ih =>
    have hc : c ≠ sep := fun e => h (by simp [e])
    have hcs : sep ∉ cs := fun e => h (by simp [e])
    simp [splitChars, hc, ih hcs]

theorem splitChars_append (sep : Char) (a b : List Char) (h : sep ∉ a) :
    splitChars sep (a ++ sep :: b) = a :: splitChars sep b := by
  induction a with
  | nil => simp [splitChars]
  | cons c cs ih =>
    have hc : c ≠ sep := fun e => h (by simp [e])
    have hcs : sep ∉ cs := fun e => h (by simp [e])
    simp [splitChars, hc, ih hcs]

theorem splitChars_cons_inv (sep : Char) (l a : List Char) (rest : List (List Char))
    (h : splitChars sep l = a :: rest) :
    sep ∉ a ∧ ((rest = [] ∧ l = a) ∨ ∃ b, l = a ++ sep :: b ∧ splitChars sep b = rest) := by
  induction l generalizing a rest with
  | nil =>
    simp [splitChars] at h
    obtain ⟨rfl, rfl⟩ := h
    simp
  | cons c cs ih =>
    simp only [splitChars] at h
    by_cases hc : c = sep
    · simp only [hc, if_true, List.cons.injEq] at h
      obtain ⟨rfl, rfl⟩ := h
      refine ⟨by simp, Or.inr ⟨cs, by simp [hc], rfl⟩⟩
    · simp only [hc, if_false] at h
      cases hs : splitChars sep cs with
      | nil => exact absurd hs (splitChars_ne_nil sep cs)
      | cons p ps =>
        rw [hs] at h
        simp only [List.cons.injEq] at h
        obtain ⟨rfl, rfl⟩ := h
        obtain ⟨hp, hrest⟩ := ih p ps hs
        refine ⟨?_, ?_⟩
        · simp only [List.mem_cons, not_or]
          exact ⟨fun e => hc e.symm, hp⟩
        · rcases hrest with ⟨rfl, rfl⟩ | ⟨b, rfl, hb⟩
          · exact Or.inl ⟨rfl, rfl⟩
          · exact Or.inr ⟨b, by simp, hb⟩

theorem stringsSplit_eq_pair_iff (s a b : String) (sep : Char) :
    stringsSplit s sep = [a, b] ↔
      s = a ++ String.singleton sep ++ b ∧ sep ∉ a.data ∧ sep ∉ b.data := by
  unfold stringsSplit
  constructor
  · intro h
    cases hl : splitChars sep s.data with
    | nil => exact absurd hl (splitChars_ne_nil sep _)
    | cons p ps =>
      rw [hl] at h
      simp only [List.map_cons, List.cons.injEq] at h
      obtain ⟨hp, hps⟩ := h
      obtain ⟨hpa, hcase⟩ := splitChars_cons_inv sep s.data p ps hl
      rcases hcase with ⟨rfl, _⟩ | ⟨l, hsl, hl2⟩
      · simp at hps
      · cases ps with
        | nil => simp at hps
        | cons q qs =>
          simp only [List.map_cons, List.cons.injEq, List.map_eq_nil_iff] at hps
          obtain ⟨hq, rfl⟩ := hps
          obtain ⟨hqb, hcase2⟩ := splitChars_cons_inv sep l q [] hl2
          have hlq : l = q := by
            rcases hcase2 with ⟨_, h2⟩ | ⟨l2, _, h3⟩
            · exact h2
            · exact absurd h3 (splitChars_ne_nil sep _)
          subst hlq
          subst hp
          subst hq
          refine ⟨?_, hpa, hqb⟩
          apply String.ext
          simp [hsl, String.singleton]
  · rintro ⟨rfl, ha, hb⟩
    have : (a ++ String.singleton sep ++ b).data = a.data ++ sep :: b.data := by
      simp [String.singleton]
    rw [this, splitChars_append sep _ _ ha, splitChars_of_not_mem sep _ hb]
    rfl

theorem stringsSplit_ne_nil (s : String) (sep : Char) : stringsSplit s sep ≠ [] := by
  unfold stringsSplit
  simp [splitChars_ne_nil]

theorem stringsSplit_empty (sep : Char) : stringsSplit "" sep = [""] := by
  rfl

theorem header_nonempty_of_split (s a b : String) (sep : Char)
    (h : stringsSplit s sep = [a, b]) : s.utf8ByteSize ≠ 0 := by
  intro h0
  rw [utf8ByteSize_eq_zero_iff] at h0
  subst h0
  rw [stringsSplit_empty] at h
  simp at h

/-! ## Type assertions and role matching -/

theorem matchRoles_eq_true_iff (userRole : String) (acceptRoles : List String) :
    matchRoles userRole acceptRoles = true ↔ userRole ∈ acceptRoles := by
  induction acceptRoles with
  | nil => simp [matchRoles]
  | cons r rest ih =>
    simp only [matchRoles, List.mem_cons]
    by_cases h : r = userRole
    · simp [h]
    · have h' : ¬ userRole = r := fun e => h e.symm
      simp [h, h', ih]

theorem assertString_eq_some_iff (v : Option AnyValue) (s : String) :
    assertString v = some s ↔ v = some (.str s) := by
  cases v with
  | none => simp [assertString]
  | some a => cases a <;> simp [assertString]

theorem assertString_eq_none_iff (v : Option AnyValue) :
    assertString v = none ↔ ∀ s, v ≠ some (.str s) := by
  cases v with
  | none => simp [assertString]
  | some a => cases a <;> simp [assertString]

/-! ## The paths of the gate -/

theorem gate_empty (jwtParse : Verifier) (cfg : epConfig) (rp : RelyingParty) (c : Context)
    (h : c.GetHeader HeaderAuthorization = "") :
    newEndpointRelyingPartyMw jwtParse cfg rp c =
      ⟨[.warn [] "empty user token",
        .abort StatusUnauthorized (newErr invalidToken "token not exists")], c⟩ := by
  have h0 : (c.GetHeader HeaderAuthorization).utf8ByteSize = 0 := by
    rw [utf8ByteSize_eq_zero_iff]; exact h
  simp only [newEndpointRelyingPartyMw, h0, if_true]

theorem gate_malformed (jwtParse : Verifier) (cfg : epConfig) (rp : RelyingParty) (c : Context)
    (hne : c.GetHeader HeaderAuthorization ≠ "")
    (hbad : (stringsSplit (c.GetHeader HeaderAuthorization) ' ').length ≠ 2 ∨
      (stringsSplit (c.GetHeader HeaderAuthorization) ' ').getD 0 "" ≠ TokenType) :
    newEndpointRelyingPartyMw jwtParse cfg rp c =
      ⟨[.warn [] "invalid token",
        .abort StatusUnauthorized (newErr invalidToken "token is malformed")], c⟩ := by
  have h0 : ¬ (c.GetHeader HeaderAuthorization).utf8ByteSize = 0 := by
    rw [utf8ByteSize_eq_zero_iff]; exact hne
  simp only [newEndpointRelyingPartyMw, h0, if_false, hbad, if_true]

theorem gate_verifier_error (jwtParse : Verifier) (cfg : epConfig) (rp : RelyingParty)
    (c : Context) (t e : String)
    (hs : stringsSplit (c.GetHeader HeaderAuthorization) ' ' = [TokenType, t])
    (herr : (jwtParse t (keyFunc rp)).err = some e) :
    newEndpointRelyingPartyMw jwtParse cfg rp c =
      ⟨[.parse t, .warn [("error", some e)] "parse token err",
        .abort StatusUnauthorized (newErr invalidToken e)], c⟩ := by
  have h0 := header_nonempty_of_split _ _ _ _ hs
  cases hr : jwtParse t (keyFunc rp) with
  | mk tok err =>
    rw [hr] at herr
    simp only at herr
    subst herr
    simp [newEndpointRelyingPartyMw, h0, hs, hr]

theorem gate_nil_token (jwtParse : Verifier) (cfg : epConfig) (rp : RelyingParty)
    (c : Context) (t : String)
    (hs : stringsSplit (c.GetHeader HeaderAuthorization) ' ' = [TokenType, t])
    (hres : jwtParse t (keyFunc rp) = ⟨none, none⟩) :
    newEndpointRelyingPartyMw jwtParse cfg rp c =
      ⟨[.parse t, .panic "nil pointer dereference"], c⟩ := by
  have h0 := header_nonempty_of_split _ _ _ _ hs
  simp [newEndpointRelyingPartyMw, h0, hs, hres]

theorem gate_not_valid (jwtParse : Verifier) (cfg : epConfig) (rp : RelyingParty)
    (c : Context) (t : String) (tok : Token)
    (hs : stringsSplit (c.GetHeader HeaderAuthorization) ' ' = [TokenType, t])
    (hres : jwtParse t (keyFunc rp) = ⟨some tok, none⟩)
    (hbad : tok.Valid = false ∨ tok.Claims = .otherClaims) :
    newEndpointRelyingPartyMw jwtParse cfg rp c =
      ⟨[.parse t, .warn [("error", none)] "claims err",
        .panic "nil pointer dereference"], c⟩ := by
  have h0 := header_nonempty_of_split _ _ _ _ hs
  rcases hbad with hv | hc
  · cases hcl : tok.Claims <;> simp [newEndpointRelyingPartyMw, h0, hs, hres, hv, hcl]
  · simp [newEndpointRelyingPartyMw, h0, hs, hres, hc]

theorem gate_no_user_id (jwtParse : Verifier) (cfg : epConfig) (rp : RelyingParty)
    (c : Context) (t : String) (tok : Token) (claims : String → Option AnyValue)
    (hs : stringsSplit (c.GetHeader HeaderAuthorization) ' ' = [TokenType, t])
    (hres : jwtParse t (keyFunc rp) = ⟨some tok, none⟩)
    (hvalid : tok.Valid = true) (hclaims : tok.Claims = .mapClaims claims)
    (hid : assertString (claims "user_id") = none) :
    newEndpointRelyingPartyMw jwtParse cfg rp c =
      ⟨[.parse t, .warn [] "user id in claims not exist",
        .abort StatusUnauthorized invalidUserIDErr], c⟩ := by
  have h0 := header_nonempty_of_split _ _ _ _ hs
  simp [newEndpointRelyingPartyMw, h0, hs, hres, hvalid, hclaims, hid]

theorem gate_no_user_role (jwtParse : Verifier) (cfg : epConfig) (rp : RelyingParty)
    (c : Context) (t : String) (tok : Token) (claims : String → Option AnyValue)
    (userID : String)
    (hs : stringsSplit (c.GetHeader HeaderAuthorization) ' ' = [TokenType, t])
    (hres : jwtParse t (keyFunc rp) = ⟨some tok, none⟩)
    (hvalid : tok.Valid = true) (hclaims : tok.Claims = .mapClaims claims)
    (hid : assertString (claims "user_id") = some userID)
    (hrole : assertString (claims "user_role") = none) :
    newEndpointRelyingPartyMw jwtParse cfg rp c =
      ⟨[.parse t, .warn [] "user role in claims not exist",
        .abort StatusUnauthorized invalidUserRoleErr], c⟩ := by
  have h0 := header_nonempty_of_split _ _ _ _ hs
  simp [newEndpointRelyingPartyMw, h0, hs, hres, hvalid, hclaims, hid, hrole]

theorem gate_denied (jwtParse : Verifier) (cfg : epConfig) (rp : RelyingParty)
    (c : Context) (t : String) (tok : Token) (claims : String → Option AnyValue)
    (userID userRole : String)
    (hs : stringsSplit (c.GetHeader HeaderAuthorization) ' ' = [TokenType, t])
    (hres : jwtParse t (keyFunc rp) = ⟨some tok, none⟩)
    (hvalid : tok.Valid = true) (hclaims : tok.Claims = .mapClaims claims)
    (hid : assertString (claims "user_id") = some userID)
    (hrole : assertString (claims "user_role") = some userRole)
    (hmatch : matchRoles userRole cfg.Roles = false) :
    newEndpointRelyingPartyMw jwtParse cfg rp c =
      ⟨[.parse t, .warn [("role", some userRole)] "access denied",
        .abort StatusForbidden accessDenied], c⟩ := by
  have h0 := header_nonempty_of_split _ _ _ _ hs
  simp [newEndpointRelyingPartyMw, h0, hs, hres, hvalid, hclaims, hid, hrole, hmatch]

theorem gate_allowed (jwtParse : Verifier) (cfg : epConfig) (rp : RelyingParty)
    (c : Context) (t : String) (tok : Token) (claims : String → Option AnyValue)
    (userID userRole : String)
    (hs : stringsSplit (c.GetHeader HeaderAuthorization) ' ' = [TokenType, t])
    (hres : jwtParse t (keyFunc rp) = ⟨some tok, none⟩)
    (hvalid : tok.Valid = true) (hclaims : tok.Claims = .mapClaims claims)
    (hid : assertString (claims "user_id") = some userID)
    (hrole : assertString (claims "user_role") = some userRole)
    (hmatch : matchRoles userRole cfg.Roles = true) :
    newEndpointRelyingPartyMw jwtParse cfg rp c =
      ⟨[.parse t, .setHeader HeaderUserID userID, .next (c.SetHeader HeaderUserID userID)],
        c.SetHeader HeaderUserID userID⟩ := by
  have h0 := header_nonempty_of_split _ _ _ _ hs
  simp [newEndpointRelyingPartyMw, h0, hs, hres, hvalid, hclaims, hid, hrole, hmatch]

/-! ## The claims -/

theorem split_of_not_malformed (s : String)
    (h : ¬ ((stringsSplit s ' ').length ≠ 2 ∨ (stringsSplit s ' ').getD 0 "" ≠ TokenType)) :
    ∃ t, stringsSplit s ' ' = [TokenType, t] := by
  simp only [not_or, not_not] at h
  obtain ⟨hlen, hhead⟩ := h
  match hl : stringsSplit s ' ', hlen, hhead with
  | [a, b], _, hhead =>
    simp only [List.getD_cons_zero] at hhead
    exact ⟨b, by rw [hhead]⟩

theorem parseResult_eq (r : ParseResult) (tok : Option Token) (err : Option String)
    (ht : r.token = tok) (he : r.err = err) : r = ⟨tok, err⟩ := by
  cases r
  simp only at ht he
  rw [ht, he]

/-- C1. The wrapped handler is invoked only for an authorized request: if the run of the gate
contains a call of `next`, then the Authorization header is not empty and splits at its spaces
into exactly `Bearer` and a credential, `jwt.Parse` on that credential returned no error and a
token with `Valid = true` whose claims are a claim map, the map holds strings under `user_id`
and `user_role`, and the role is an element of `cfg.Roles`. -/
theorem next_only_if_authorized (jwtParse : Verifier) (cfg : epConfig) (rp : RelyingParty)
    (c c' : Context)
    (h : Event.next c' ∈ (newEndpointRelyingPartyMw jwtParse cfg rp c).events) :
    ∃ (t : String) (tok : Token) (claims : String → Option AnyValue) (userID userRole : String),
      c.GetHeader HeaderAuthorization ≠ "" ∧
      stringsSplit (c.GetHeader HeaderAuthorization) ' ' = [TokenType, t] ∧
      (jwtParse t (keyFunc rp)).err = none ∧
      (jwtParse t (keyFunc rp)).token = some tok ∧
      tok.Valid = true ∧ tok.Claims = .mapClaims claims ∧
      claims "user_id" = some (.str userID) ∧
      claims "user_role" = some (.str userRole) ∧
      userRole ∈ cfg.Roles := by
  by_cases he : c.GetHeader HeaderAuthorization = ""
  · rw [gate_empty jwtParse cfg rp c he] at h
    simp at h
  by_cases hbad : (stringsSplit (c.GetHeader HeaderAuthorization) ' ').length ≠ 2 ∨
      (stringsSplit (c.GetHeader HeaderAuthorization) ' ').getD 0 "" ≠ TokenType
  · rw [gate_malformed jwtParse cfg rp c he hbad] at h
    simp at h
  obtain ⟨t, hs⟩ := split_of_not_malformed _ hbad
  cases hres : jwtParse t (keyFunc rp) with
  | mk otok oerr =>
  cases oerr with
  | some e =>
    rw [gate_verifier_error jwtParse cfg rp c t e hs (by rw [hres])] at h
    simp at h
  | none =>
  cases otok with
  | none =>
    rw [gate_nil_token jwtParse cfg rp c t hs hres] at h
    simp at h
  | some tok =>
  cases hv : tok.Valid with
  | false =>
    rw [gate_not_valid jwtParse cfg rp c t tok hs hres (Or.inl hv)] at h
    simp at h
  | true =>
  cases hcl : tok.Claims with
  | otherClaims =>
    rw [gate_not_valid jwtParse cfg rp c t tok hs hres (Or.inr hcl)] at h
    simp at h
  | mapClaims claims =>
  cases hid : assertString (claims "user_id") with
  | none =>
    rw [gate_no_user_id jwtParse cfg rp c t tok claims hs hres hv hcl hid] at h
    simp at h
  | some userID =>
  cases hrole : assertString (claims "user_role") with
  | none =>
    rw [gate_no_user_role jwtParse cfg rp c t tok claims userID hs hres hv hcl hid hrole] at h
    simp at h
  | some userRole =>
  cases hm : matchRoles userRole cfg.Roles with
  | false =>
    rw [gate_denied jwtParse cfg rp c t tok claims userID userRole hs hres hv hcl hid hrole hm]
      at h
    simp at h
  | true =>
    exact ⟨t, tok, claims, userID, userRole, he, hs, by rw [hres], by rw [hres], hv, hcl,
      (assertString_eq_some_iff _ _).1 hid, (assertString_eq_some_iff _ _).1 hrole,
      (matchRoles_eq_true_iff _ _).1 hm⟩

/-- The sample request of an editor reaches the wrapped handler, and so meets every
condition on the header, the verifier outcome, the claims and the role. -/
theorem next_only_if_authorized_witness :
    Event.next ((sampleContext (some "Bearer editor-u1")).SetHeader HeaderUserID "u1") ∈
        (newEndpointRelyingPartyMw sampleVerifier sampleConfig sampleRelyingParty
          (sampleContext (some "Bearer editor-u1"))).events ∧
      ∃ (t : String) (tok : Token) (claims : String → Option AnyValue)
        (userID userRole : String),
        (sampleContext (some "Bearer editor-u1")).GetHeader HeaderAuthorization ≠ "" ∧
        stringsSplit ((sampleContext (some "Bearer editor-u1")).GetHeader HeaderAuthorization)
          ' ' = [TokenType, t] ∧
        (sampleVerifier t (keyFunc sampleRelyingParty)).err = none ∧
        (sampleVerifier t (keyFunc sampleRelyingParty)).token = some tok ∧
        tok.Valid = true ∧ tok.Claims = .mapClaims claims ∧
        claims "user_id" = some (.str userID) ∧
        claims "user_role" = some (.str userRole) ∧
        userRole ∈ sampleConfig.Roles :=
  have hmem : Event.next ((sampleContext (some "Bearer editor-u1")).SetHeader HeaderUserID "u1") ∈
      (newEndpointRelyingPartyMw sampleVerifier sampleConfig sampleRelyingParty
        (sampleContext (some "Bearer editor-u1"))).events :=
    List.Mem.tail _ (List.Mem.tail _ (List.Mem.head _))
  ⟨hmem, next_only_if_authorized _ _ _ _ _ hmem⟩

theorem split_bearer (t : String) (ht : ' ' ∉ t.data) :
    stringsSplit ("Bearer " ++ t) ' ' = [TokenType, t] := by
  rw [stringsSplit_eq_pair_iff]
  refine ⟨?_, by decide, ht⟩
  apply String.ext
  simp [TokenType, String.singleton]

/-- C2. A request whose Authorization header is `Bearer `, followed by a credential `t` (one
token, so free of spaces) that the verifier accepts (no error, `Valid = true`, map claims)
with a string `user_id = u` and a string `user_role = r` in `cfg.Roles`, is not aborted: the
gate calls the verifier, sets the header `User-Id` to `u`, then invokes the wrapped handler,
once, on the request that carries `User-Id: u`; it makes no other call. -/
theorem authorized_request_delegates (jwtParse : Verifier) (cfg : epConfig) (rp : RelyingParty)
    (c : Context) (t : String) (tok : Token) (claims : String → Option AnyValue)
    (u r : String)
    (hhdr : c.GetHeader HeaderAuthorization = "Bearer " ++ t)
    (hcred : ' ' ∉ t.data)
    (herr : (jwtParse t (keyFunc rp)).err = none)
    (htok : (jwtParse t (keyFunc rp)).token = some tok)
    (hvalid : tok.Valid = true) (hclaims : tok.Claims = .mapClaims claims)
    (hid : claims "user_id" = some (.str u))
    (hrole : claims "user_role" = some (.str r))
    (hmem : r ∈ cfg.Roles) :
    newEndpointRelyingPartyMw jwtParse cfg rp c =
        ⟨[.parse t, .setHeader HeaderUserID u, .next (c.SetHeader HeaderUserID u)],
          c.SetHeader HeaderUserID u⟩ ∧
      (c.SetHeader HeaderUserID u).Header HeaderUserID = some [u] ∧
      (c.SetHeader HeaderUserID u).GetHeader HeaderUserID = u := by
  have hs : stringsSplit (c.GetHeader HeaderAuthorization) ' ' = [TokenType, t] := by
    rw [hhdr]; exact split_bearer t hcred
  refine ⟨gate_allowed jwtParse cfg rp c t tok claims u r hs (parseResult_eq _ _ _ htok herr)
    hvalid hclaims ((assertString_eq_some_iff _ _).2 hid) ((assertString_eq_some_iff _ _).2 hrole)
    ((matchRoles_eq_true_iff _ _).2 hmem), ?_, ?_⟩
  · simp [Context.SetHeader, Header.Set]
  · simp [Context.GetHeader, Context.SetHeader, Header.Set, Header.Get]

/-- The editor of the sample scenario is delegated with `User-Id: u1`. -/
theorem authorized_request_delegates_witness :
    newEndpointRelyingPartyMw sampleVerifier sampleConfig sampleRelyingParty
        (sampleContext (some "Bearer editor-u1")) =
        ⟨[.parse "editor-u1", .setHeader HeaderUserID "u1",
          .next ((sampleContext (some "Bearer editor-u1")).SetHeader HeaderUserID "u1")],
          (sampleContext (some "Bearer editor-u1")).SetHeader HeaderUserID "u1"⟩ ∧
      ((sampleContext (some "Bearer editor-u1")).SetHeader HeaderUserID "u1").Header
        HeaderUserID = some ["u1"] ∧
      ((sampleContext (some "Bearer editor-u1")).SetHeader HeaderUserID "u1").GetHeader
        HeaderUserID = "u1" :=
  authorized_request_delegates sampleVerifier sampleConfig sampleRelyingParty
    (sampleContext (some "Bearer editor-u1")) "editor-u1"
    (sampleToken "editor-u1" (some (.str "u1")) (some (.str "editor")) true)
    (sampleClaims (some (.str "u1")) (some (.str "editor"))) "u1" "editor"
    (by decide) (by decide) (by decide) rfl rfl rfl (by decide) (by decide) (by decide)

/-- C3. A request carrying a credential that the verifier accepts, whose claims hold a string
`user_id` and a string `user_role` equal to no element of `cfg.Roles`, is aborted with status
403 and the body `accessDenied`: the run is the verifier call, a warning and that abort, so
the wrapped handler is not invoked, the gate sets no header, and the request is unchanged. -/
theorem disallowed_role_forbidden (jwtParse : Verifier) (cfg : epConfig) (rp : RelyingParty)
    (c : Context) (t : String) (tok : Token) (claims : String → Option AnyValue)
    (u r : String)
    (hs : stringsSplit (c.GetHeader HeaderAuthorization) ' ' = [TokenType, t])
    (herr : (jwtParse t (keyFunc rp)).err = none)
    (htok : (jwtParse t (keyFunc rp)).token = some tok)
    (hvalid : tok.Valid = true) (hclaims : tok.Claims = .mapClaims claims)
    (hid : claims "user_id" = some (.str u))
    (hrole : claims "user_role" = some (.str r))
    (hnot : ∀ a ∈ cfg.Roles, r ≠ a) :
    newEndpointRelyingPartyMw jwtParse cfg rp c =
        ⟨[.parse t, .warn [("role", some r)] "access denied",
          .abort StatusForbidden accessDenied], c⟩ ∧
      StatusForbidden = 403 ∧
      (∀ c', Event.next c' ∉ (newEndpointRelyingPartyMw jwtParse cfg rp c).events) ∧
      (∀ k v, Event.setHeader k v ∉ (newEndpointRelyingPartyMw jwtParse cfg rp c).events) ∧
      (newEndpointRelyingPartyMw jwtParse cfg rp c).request = c := by
  have hm : matchRoles r cfg.Roles = false := by
    cases hmr : matchRoles r cfg.Roles with
    | false => rfl
    | true => exact absurd rfl (hnot r ((matchRoles_eq_true_iff _ _).1 hmr))
  have hrun := gate_denied jwtParse cfg rp c t tok claims u r hs
    (parseResult_eq _ _ _ htok herr) hvalid hclaims ((assertString_eq_some_iff _ _).2 hid)
    ((assertString_eq_some_iff _ _).2 hrole) hm
  rw [hrun]
  simp [StatusForbidden]

/-- The viewer of the sample scenario is refused with 403. -/
theorem disallowed_role_forbidden_witness :
    newEndpointRelyingPartyMw sampleVerifier sampleConfig sampleRelyingParty
        (sampleContext (some "Bearer viewer-u1")) =
        ⟨[.parse "viewer-u1", .warn [("role", some "viewer")] "access denied",
          .abort StatusForbidden accessDenied], sampleContext (some "Bearer viewer-u1")⟩ ∧
      StatusForbidden = 403 ∧
      (∀ c', Event.next c' ∉ (newEndpointRelyingPartyMw sampleVerifier sampleConfig
        sampleRelyingParty (sampleContext (some "Bearer viewer-u1"))).events) ∧
      (∀ k v, Event.setHeader k v ∉ (newEndpointRelyingPartyMw sampleVerifier sampleConfig
        sampleRelyingParty (sampleContext (some "Bearer viewer-u1"))).events) ∧
      (newEndpointRelyingPartyMw sampleVerifier sampleConfig sampleRelyingParty
        (sampleContext (some "Bearer viewer-u1"))).request =
        sampleContext (some "Bearer viewer-u1") :=
  disallowed_role_forbidden sampleVerifier sampleConfig sampleRelyingParty
    (sampleContext (some "Bearer viewer-u1")) "viewer-u1"
    (sampleToken "viewer-u1" (some (.str "u1")) (some (.str "viewer")) true)
    (sampleClaims (some (.str "u1")) (some (.str "viewer"))) "u1" "viewer"
    (by decide) (by decide) rfl rfl rfl (by decide) (by decide) (by decide)

/-- C5. When the Authorization header is absent or empty, the gate aborts with status 401 and
the body `newErr(invalidToken, "token not exists")`; the run is a warning and that abort, so
the verifier is not called and the wrapped handler is not invoked. -/
theorem missing_authorization_rejected (jwtParse : Verifier) (cfg : epConfig)
    (rp : RelyingParty) (c : Context)
    (h : c.Header HeaderAuthorization = none ∨ c.GetHeader HeaderAuthorization = "") :
    newEndpointRelyingPartyMw jwtParse cfg rp c =
        ⟨[.warn [] "empty user token",
          .abort StatusUnauthorized (newErr invalidToken "token not exists")], c⟩ ∧
      StatusUnauthorized = 401 ∧
      (∀ t, Event.parse t ∉ (newEndpointRelyingPartyMw jwtParse cfg rp c).events) ∧
      (∀ c', Event.next c' ∉ (newEndpointRelyingPartyMw jwtParse cfg rp c).events) := by
  have he : c.GetHeader HeaderAuthorization = "" := by
    rcases h with h | h
    · simp [Context.GetHeader, Header.Get, h]
    · exact h
  rw [gate_empty jwtParse cfg rp c he]
  simp [StatusUnauthorized]

/-- A request without the header, and a request with an empty one, are both refused. -/
theorem missing_authorization_rejected_witness :
    (newEndpointRelyingPartyMw sampleVerifier sampleConfig sampleRelyingParty
        (sampleContext none) =
        ⟨[.warn [] "empty user token",
          .abort StatusUnauthorized (newErr invalidToken "token not exists")],
          sampleContext none⟩ ∧
      StatusUnauthorized = 401 ∧
      (∀ t, Event.parse t ∉ (newEndpointRelyingPartyMw sampleVerifier sampleConfig
        sampleRelyingParty (sampleContext none)).events) ∧
      (∀ c', Event.next c' ∉ (newEndpointRelyingPartyMw sampleVerifier sampleConfig
        sampleRelyingParty (sampleContext none)).events)) ∧
    (newEndpointRelyingPartyMw sampleVerifier sampleConfig sampleRelyingParty
        (sampleContext (some "")) =
        ⟨[.warn [] "empty user token",
          .abort StatusUnauthorized (newErr invalidToken "token not exists")],
          sampleContext (some "")⟩ ∧
      StatusUnauthorized = 401 ∧
      (∀ t, Event.parse t ∉ (newEndpointRelyingPartyMw sampleVerifier sampleConfig
        sampleRelyingParty (sampleContext (some ""))).events) ∧
      (∀ c', Event.next c' ∉ (newEndpointRelyingPartyMw sampleVerifier sampleConfig
        sampleRelyingParty (sampleContext (some ""))).events)) :=
  ⟨missing_authorization_rejected sampleVerifier sampleConfig sampleRelyingParty
      (sampleContext none) (Or.inl (by decide)),
    missing_authorization_rejected sampleVerifier sampleConfig sampleRelyingParty
      (sampleContext (some "")) (Or.inr (by decide))⟩

theorem getD_zero_ne_iff (l : List String) (a : String) (hl : l ≠ []) :
    l.getD 0 "" ≠ a ↔ l.head? ≠ some a := by
  cases l with
  | nil => exact absurd rfl hl
  | cons x xs => simp

/-- C6. When the Authorization header is not empty and, split at each space, does not give
exactly two pieces or gives a first piece other than `Bearer`, the gate aborts with status 401
and the body `newErr(invalidToken, "token is malformed")`; the run is a warning and that
abort, so the verifier is not called and the wrapped handler is not invoked. -/
theorem malformed_authorization_rejected (jwtParse : Verifier) (cfg : epConfig)
    (rp : RelyingParty) (c : Context)
    (hne : c.GetHeader HeaderAuthorization ≠ "")
    (hbad : (stringsSplit (c.GetHeader HeaderAuthorization) ' ').length ≠ 2 ∨
      (stringsSplit (c.GetHeader HeaderAuthorization) ' ').head? ≠ some "Bearer") :
    newEndpointRelyingPartyMw jwtParse cfg rp c =
        ⟨[.warn [] "invalid token",
          .abort StatusUnauthorized (newErr invalidToken "token is malformed")], c⟩ ∧
      StatusUnauthorized = 401 ∧
      (∀ t, Event.parse t ∉ (newEndpointRelyingPartyMw jwtParse cfg rp c).events) ∧
      (∀ c', Event.next c' ∉ (newEndpointRelyingPartyMw jwtParse cfg rp c).events) := by
  have hbad' : (stringsSplit (c.GetHeader HeaderAuthorization) ' ').length ≠ 2 ∨
      (stringsSplit (c.GetHeader HeaderAuthorization) ' ').getD 0 "" ≠ TokenType := by
    rcases hbad with h | h
    · exact Or.inl h
    · exact Or.inr ((getD_zero_ne_iff _ _ (stringsSplit_ne_nil _ _)).2 h)
  rw [gate_malformed jwtParse cfg rp c hne hbad']
  simp [StatusUnauthorized]

/-- The headers `bearer x`, `Basic x`, `Bearer` and `Bearer a b` are all refused as
malformed. -/
theorem malformed_authorization_rejected_witness :
    (newEndpointRelyingPartyMw sampleVerifier sampleConfig sampleRelyingParty
        (sampleContext (some "bearer x"))).events =
        [.warn [] "invalid token",
          .abort StatusUnauthorized (newErr invalidToken "token is malformed")] ∧
    (newEndpointRelyingPartyMw sampleVerifier sampleConfig sampleRelyingParty
        (sampleContext (some "Basic x"))).events =
        [.warn [] "invalid token",
          .abort StatusUnauthorized (newErr invalidToken "token is malformed")] ∧
    (newEndpointRelyingPartyMw sampleVerifier sampleConfig sampleRelyingParty
        (sampleContext (some "Bearer"))).events =
        [.warn [] "invalid token",
          .abort StatusUnauthorized (newErr invalidToken "token is malformed")] ∧
    (newEndpointRelyingPartyMw sampleVerifier sampleConfig sampleRelyingParty
        (sampleContext (some "Bearer a b"))).events =
        [.warn [] "invalid token",
          .abort StatusUnauthorized (newErr invalidToken "token is malformed")] :=
  ⟨congrArg Run.events (malformed_authorization_rejected sampleVerifier sampleConfig
      sampleRelyingParty (sampleContext (some "bearer x")) (by decide)
      (Or.inr (by decide))).1,
    congrArg Run.events (malformed_authorization_rejected sampleVerifier sampleConfig
      sampleRelyingParty (sampleContext (some "Basic x")) (by decide)
      (Or.inr (by decide))).1,
    congrArg Run.events (malformed_authorization_rejected sampleVerifier sampleConfig
      sampleRelyingParty (sampleContext (some "Bearer")) (by decide)
      (Or.inl (by decide))).1,
    congrArg Run.events (malformed_authorization_rejected sampleVerifier sampleConfig
      sampleRelyingParty (sampleContext (some "Bearer a b")) (by decide)
      (Or.inl (by decide))).1⟩

/-- C7. When the header passes the parser and `jwt.Parse` returns an error `e`, the gate aborts
with status 401 and the body `newErr(invalidToken, e)`, whatever token comes with the error
and whatever the role list: the run is the verifier call, a warning and that abort, so the
wrapped handler is not invoked and the request is unchanged. -/
theorem verifier_error_rejected (jwtParse : Verifier) (cfg : epConfig) (rp : RelyingParty)
    (c : Context) (t e : String)
    (hs : stringsSplit (c.GetHeader HeaderAuthorization) ' ' = [TokenType, t])
    (herr : (jwtParse t (keyFunc rp)).err = some e) :
    newEndpointRelyingPartyMw jwtParse cfg rp c =
        ⟨[.parse t, .warn [("error", some e)] "parse token err",
          .abort StatusUnauthorized (newErr invalidToken e)], c⟩ ∧
      StatusUnauthorized = 401 ∧
      (∀ c', Event.next c' ∉ (newEndpointRelyingPartyMw jwtParse cfg rp c).events) := by
  rw [gate_verifier_error jwtParse cfg rp c t e hs herr]
  simp [StatusUnauthorized]

/-- A credential unknown to the sample verifier is refused with the verifier's own text. -/
theorem verifier_error_rejected_witness :
    newEndpointRelyingPartyMw sampleVerifier sampleConfig sampleRelyingParty
        (sampleContext (some "Bearer garbage")) =
        ⟨[.parse "garbage",
          .warn [("error", some "token contains an invalid number of segments")]
            "parse token err",
          .abort StatusUnauthorized
            (newErr invalidToken "token contains an invalid number of segments")],
          sampleContext (some "Bearer garbage")⟩ ∧
      StatusUnauthorized = 401 ∧
      (∀ c', Event.next c' ∉ (newEndpointRelyingPartyMw sampleVerifier sampleConfig
        sampleRelyingParty (sampleContext (some "Bearer garbage"))).events) :=
  verifier_error_rejected sampleVerifier sampleConfig sampleRelyingParty
    (sampleContext (some "Bearer garbage")) "garbage"
    "token contains an invalid number of segments" (by decide) (by decide)

end relyingparty
namespace relyingparty

/-- C8. The key-lookup callback returns the shared secret bytes (and no error) exactly when
the signing method of the token is of the HMAC family; for every other signing method it
returns no key and the error `unexpected signing method: ` followed by the `alg` header as
`%v` prints it, so a key is offered for HMAC tokens only. -/
theorem keyFunc_secret_iff_hmac (rp : RelyingParty) (token : Token) :
    (keyFunc rp token = ⟨some rp.cfg.TokenSecret.toUTF8, none⟩ ↔
        ∃ alg, token.Method = .hmac alg) ∧
      (keyFunc rp token =
          ⟨none, some ("unexpected signing method: " ++ sprintV (token.Header "alg"))⟩ ↔
        ¬ ∃ alg, token.Method = .hmac alg) ∧
      ((keyFunc rp token).key = none ↔ ¬ ∃ alg, token.Method = .hmac alg) := by
  cases hm : token.Method <;> simp [keyFunc, SigningMethod.isHMAC, hm]

/-- C9. For an accepted claim set (no error, `Valid = true`, map claims) in which `user_id` is
absent or is not a string, the gate aborts with status 401 and the body `invalidUserIDErr`,
whatever `user_role` holds and whatever the role list: the run is the verifier call, a
warning and that abort, so the wrapped handler is not invoked. -/
theorem missing_user_id_rejected (jwtParse : Verifier) (cfg : epConfig) (rp : RelyingParty)
    (c : Context) (t : String) (tok : Token) (claims : String → Option AnyValue)
    (hs : stringsSplit (c.GetHeader HeaderAuthorization) ' ' = [TokenType, t])
    (herr : (jwtParse t (keyFunc rp)).err = none)
    (htok : (jwtParse t (keyFunc rp)).token = some tok)
    (hvalid : tok.Valid = true) (hclaims : tok.Claims = .mapClaims claims)
    (hid : ∀ s, claims "user_id" ≠ some (.str s)) :
    newEndpointRelyingPartyMw jwtParse cfg rp c =
        ⟨[.parse t, .warn [] "user id in claims not exist",
          .abort StatusUnauthorized invalidUserIDErr], c⟩ ∧
      StatusUnauthorized = 401 ∧
      (∀ c', Event.next c' ∉ (newEndpointRelyingPartyMw jwtParse cfg rp c).events) := by
  rw [gate_no_user_id jwtParse cfg rp c t tok claims hs (parseResult_eq _ _ _ htok herr)
    hvalid hclaims ((assertString_eq_none_iff _).2 hid)]
  simp [StatusUnauthorized]

/-- A claim set without `user_id` is refused with the user-id error although its role is
allowed, and so is a claim set that lacks both claims. -/
theorem missing_user_id_rejected_witness :
    (newEndpointRelyingPartyMw sampleVerifier sampleConfig sampleRelyingParty
        (sampleContext (some "Bearer anonymous-editor")) =
        ⟨[.parse "anonymous-editor", .warn [] "user id in claims not exist",
          .abort StatusUnauthorized invalidUserIDErr],
          sampleContext (some "Bearer anonymous-editor")⟩ ∧
      StatusUnauthorized = 401 ∧
      (∀ c', Event.next c' ∉ (newEndpointRelyingPartyMw sampleVerifier sampleConfig
        sampleRelyingParty (sampleContext (some "Bearer anonymous-editor"))).events)) ∧
    (newEndpointRelyingPartyMw
        (fun credential _ => ⟨some (sampleToken credential none none true), none⟩)
        sampleConfig sampleRelyingParty (sampleContext (some "Bearer x"))).events =
        [.parse "x", .warn [] "user id in claims not exist",
          .abort StatusUnauthorized invalidUserIDErr] :=
  ⟨missing_user_id_rejected sampleVerifier sampleConfig sampleRelyingParty
      (sampleContext (some "Bearer anonymous-editor")) "anonymous-editor"
      (sampleToken "anonymous-editor" none (some (.str "editor")) true)
      (sampleClaims none (some (.str "editor"))) (by decide) rfl rfl rfl rfl
      (fun s => by simp [sampleClaims]),
    congrArg Run.events (missing_user_id_rejected
      (fun credential _ => ⟨some (sampleToken credential none none true), none⟩)
      sampleConfig sampleRelyingParty (sampleContext (some "Bearer x")) "x"
      (sampleToken "x" none none true) (sampleClaims none none) (by decide) rfl rfl rfl rfl
      (fun s => by simp [sampleClaims])).1⟩

/-- C10. For an accepted claim set in which `user_id` is a string but `user_role` is absent or
is not a string, the gate aborts with status 401 (not 403) and the body `invalidUserRoleErr`:
the run is the verifier call, a warning and that abort, so the wrapped handler is not invoked,
the gate sets no header, and the request is unchanged. -/
theorem missing_user_role_rejected (jwtParse : Verifier) (cfg : epConfig) (rp : RelyingParty)
    (c : Context) (t : String) (tok : Token) (claims : String → Option AnyValue) (u : String)
    (hs : stringsSplit (c.GetHeader HeaderAuthorization) ' ' = [TokenType, t])
    (herr : (jwtParse t (keyFunc rp)).err = none)
    (htok : (jwtParse t (keyFunc rp)).token = some tok)
    (hvalid : tok.Valid = true) (hclaims : tok.Claims = .mapClaims claims)
    (hid : claims "user_id" = some (.str u))
    (hrole : ∀ s, claims "user_role" ≠ some (.str s)) :
    newEndpointRelyingPartyMw jwtParse cfg rp c =
        ⟨[.parse t, .warn [] "user role in claims not exist",
          .abort StatusUnauthorized invalidUserRoleErr], c⟩ ∧
      StatusUnauthorized = 401 ∧
      (∀ c', Event.next c' ∉ (newEndpointRelyingPartyMw jwtParse cfg rp c).events) ∧
      (∀ k v, Event.setHeader k v ∉ (newEndpointRelyingPartyMw jwtParse cfg rp c).events) ∧
      (newEndpointRelyingPartyMw jwtParse cfg rp c).request = c := by
  rw [gate_no_user_role jwtParse cfg rp c t tok claims u hs (parseResult_eq _ _ _ htok herr)
    hvalid hclaims ((assertString_eq_some_iff _ _).2 hid) ((assertString_eq_none_iff _).2 hrole)]
  simp [StatusUnauthorized]

/-- A claim set whose `user_role` is a number is refused with the user-role error. -/
theorem missing_user_role_rejected_witness :
    newEndpointRelyingPartyMw sampleVerifier sampleConfig sampleRelyingParty
        (sampleContext (some "Bearer u1-numbered")) =
        ⟨[.parse "u1-numbered", .warn [] "user role in claims not exist",
          .abort StatusUnauthorized invalidUserRoleErr],
          sampleContext (some "Bearer u1-numbered")⟩ ∧
      StatusUnauthorized = 401 ∧
      (∀ c', Event.next c' ∉ (newEndpointRelyingPartyMw sampleVerifier sampleConfig
        sampleRelyingParty (sampleContext (some "Bearer u1-numbered"))).events) ∧
      (∀ k v, Event.setHeader k v ∉ (newEndpointRelyingPartyMw sampleVerifier sampleConfig
        sampleRelyingParty (sampleContext (some "Bearer u1-numbered"))).events) ∧
      (newEndpointRelyingPartyMw sampleVerifier sampleConfig sampleRelyingParty
        (sampleContext (some "Bearer u1-numbered"))).request =
        sampleContext (some "Bearer u1-numbered") :=
  missing_user_role_rejected sampleVerifier sampleConfig sampleRelyingParty
    (sampleContext (some "Bearer u1-numbered")) "u1-numbered"
    (sampleToken "u1-numbered" (some (.str "u1")) (some (.other "7")) true)
    (sampleClaims (some (.str "u1")) (some (.other "7"))) "u1"
    (by decide) rfl rfl rfl rfl (by decide) (fun s => by simp [sampleClaims])

/-! ## The shapes of a run -/

/-- Every run of the gate on a request whose Authorization header is `h` has one of three
shapes, fixed by `h`, the verifier, the role list and the secret: stopped before the verifier,
stopped after the verifier, or delegated. -/
theorem gate_cases (jwtParse : Verifier) (cfg : epConfig) (rp : RelyingParty) (h : String) :
    ((∀ t, stringsSplit h ' ' ≠ [TokenType, t]) ∧
      ∃ evs : List Event,
        (∀ e ∈ evs, (∃ f m, e = .warn f m) ∨ (∃ s b, e = .abort s b) ∨ ∃ w, e = .panic w) ∧
        ∀ c : Context, c.GetHeader HeaderAuthorization = h →
          newEndpointRelyingPartyMw jwtParse cfg rp c = ⟨evs, c⟩) ∨
    (∃ (t : String) (evs : List Event),
        stringsSplit h ' ' = [TokenType, t] ∧
        (∀ e ∈ evs, (∃ f m, e = .warn f m) ∨ (∃ s b, e = .abort s b) ∨ ∃ w, e = .panic w) ∧
        ∀ c : Context, c.GetHeader HeaderAuthorization = h →
          newEndpointRelyingPartyMw jwtParse cfg rp c = ⟨.parse t :: evs, c⟩) ∨
    (∃ (t : String) (tok : Token) (claims : String → Option AnyValue) (u r : String),
        stringsSplit h ' ' = [TokenType, t] ∧
        jwtParse t (keyFunc rp) = ⟨some tok, none⟩ ∧
        tok.Valid = true ∧ tok.Claims = .mapClaims claims ∧
        claims "user_id" = some (.str u) ∧ claims "user_role" = some (.str r) ∧
        r ∈ cfg.Roles ∧
        ∀ c : Context, c.GetHeader HeaderAuthorization = h →
          newEndpointRelyingPartyMw jwtParse cfg rp c =
            ⟨[.parse t, .setHeader HeaderUserID u, .next (c.SetHeader HeaderUserID u)],
              c.SetHeader HeaderUserID u⟩) := by
  by_cases he : h = ""
  · refine Or.inl ⟨?_, _, ?_, fun c hc => gate_empty jwtParse cfg rp c (hc.trans he)⟩
    · intro t ht
      rw [he, stringsSplit_empty] at ht
      simp at ht
    · intro e hmem
      simp only [List.mem_cons, List.mem_singleton, List.not_mem_nil, or_false] at hmem
      rcases hmem with rfl | rfl
      · exact Or.inl ⟨_, _, rfl⟩
      · exact Or.inr (Or.inl ⟨_, _, rfl⟩)
  by_cases hbad : (stringsSplit h ' ').length ≠ 2 ∨ (stringsSplit h ' ').getD 0 "" ≠ TokenType
  · refine Or.inl ⟨?_, _, ?_, fun c hc =>
      gate_malformed jwtParse cfg rp c (by rw [hc]; exact he) (by rw [hc]; exact hbad)⟩
    · intro t ht
      rw [ht] at hbad
      simp at hbad
    · intro e hmem
      simp only [List.mem_cons, List.mem_singleton, List.not_mem_nil, or_false] at hmem
      rcases hmem with rfl | rfl
      · exact Or.inl ⟨_, _, rfl⟩
      · exact Or.inr (Or.inl ⟨_, _, rfl⟩)
  obtain ⟨t, hs⟩ := split_of_not_malformed _ hbad
  have hsc : ∀ c : Context, c.GetHeader HeaderAuthorization = h →
      stringsSplit (c.GetHeader HeaderAuthorization) ' ' = [TokenType, t] := by
    intro c hc; rw [hc]; exact hs
  have hquiet : ∀ (f : List (String × Option String)) (m : String) (x : Event),
      ((∃ s b, x = .abort s b) ∨ ∃ w, x = .panic w) →
      ∀ e ∈ [Event.warn f m, x],
        (∃ f m, e = .warn f m) ∨ (∃ s b, e = .abort s b) ∨ ∃ w, e = .panic w := by
    intro f m x hx e hmem
    simp only [List.mem_cons, List.mem_singleton, List.not_mem_nil, or_false] at hmem
    rcases hmem with rfl | rfl
    · exact Or.inl ⟨_, _, rfl⟩
    · exact Or.inr hx
  cases hres : jwtParse t (keyFunc rp) with
  | mk otok oerr =>
  cases oerr with
  | some e =>
    exact Or.inr (Or.inl ⟨t, _, hs, hquiet _ _ _ (Or.inl ⟨_, _, rfl⟩), fun c hc =>
      gate_verifier_error jwtParse cfg rp c t e (hsc c hc) (by rw [hres])⟩)
  | none =>
  cases otok with
  | none =>
    refine Or.inr (Or.inl ⟨t, [.panic "nil pointer dereference"], hs, ?_, fun c hc =>
      gate_nil_token jwtParse cfg rp c t (hsc c hc) hres⟩)
    intro e hmem
    simp only [List.mem_singleton] at hmem
    exact Or.inr (Or.inr ⟨_, hmem⟩)
  | some tok =>
  cases hv : tok.Valid with
  | false =>
    exact Or.inr (Or.inl ⟨t, _, hs, hquiet _ _ _ (Or.inr ⟨_, rfl⟩), fun c hc =>
      gate_not_valid jwtParse cfg rp c t tok (hsc c hc) hres (Or.inl hv)⟩)
  | true =>
  cases hcl : tok.Claims with
  | otherClaims =>
    exact Or.inr (Or.inl ⟨t, _, hs, hquiet _ _ _ (Or.inr ⟨_, rfl⟩), fun c hc =>
      gate_not_valid jwtParse cfg rp c t tok (hsc c hc) hres (Or.inr hcl)⟩)
  | mapClaims claims =>
  cases hid : assertString (claims "user_id") with
  | none =>
    exact Or.inr (Or.inl ⟨t, _, hs, hquiet _ _ _ (Or.inl ⟨_, _, rfl⟩), fun c hc =>
      gate_no_user_id jwtParse cfg rp c t tok claims (hsc c hc) hres hv hcl hid⟩)
  | some u =>
  cases hrole : assertString (claims "user_role") with
  | none =>
    exact Or.inr (Or.inl ⟨t, _, hs, hquiet _ _ _ (Or.inl ⟨_, _, rfl⟩), fun c hc =>
      gate_no_user_role jwtParse cfg rp c t tok claims u (hsc c hc) hres hv hcl hid hrole⟩)
  | some r =>
  cases hm : matchRoles r cfg.Roles with
  | false =>
    exact Or.inr (Or.inl ⟨t, _, hs, hquiet _ _ _ (Or.inl ⟨_, _, rfl⟩), fun c hc =>
      gate_denied jwtParse cfg rp c t tok claims u r (hsc c hc) hres hv hcl hid hrole hm⟩)
  | true =>
    exact Or.inr (Or.inr ⟨t, tok, claims, u, r, hs, hres, hv, hcl,
      (assertString_eq_some_iff _ _).1 hid, (assertString_eq_some_iff _ _).1 hrole,
      (matchRoles_eq_true_iff _ _).1 hm, fun c hc =>
      gate_allowed jwtParse cfg rp c t tok claims u r (hsc c hc) hres hv hcl hid hrole hm⟩)

/-- A call of `next` in a run of the gate fixes the whole run: it is the delegated one. -/
theorem gate_next_inv (jwtParse : Verifier) (cfg : epConfig) (rp : RelyingParty)
    (c c' : Context)
    (h : Event.next c' ∈ (newEndpointRelyingPartyMw jwtParse cfg rp c).events) :
    ∃ (t : String) (tok : Token) (claims : String → Option AnyValue) (u r : String),
      stringsSplit (c.GetHeader HeaderAuthorization) ' ' = [TokenType, t] ∧
      jwtParse t (keyFunc rp) = ⟨some tok, none⟩ ∧
      tok.Valid = true ∧ tok.Claims = .mapClaims claims ∧
      claims "user_id" = some (.str u) ∧ claims "user_role" = some (.str r) ∧
      r ∈ cfg.Roles ∧ c' = c.SetHeader HeaderUserID u ∧
      newEndpointRelyingPartyMw jwtParse cfg rp c =
        ⟨[.parse t, .setHeader HeaderUserID u, .next (c.SetHeader HeaderUserID u)],
          c.SetHeader HeaderUserID u⟩ := by
  rcases gate_cases jwtParse cfg rp (c.GetHeader HeaderAuthorization) with
    ⟨_, evs, hq, hrun⟩ | ⟨t, evs, _, hq, hrun⟩ | ⟨t, tok, claims, u, r, hs, hres, hv, hcl, hid,
      hrole, hmem, hrun⟩
  · rw [hrun c rfl] at h
    rcases hq _ h with ⟨_, _, he⟩ | ⟨_, _, he⟩ | ⟨_, he⟩ <;> cases he
  · rw [hrun c rfl] at h
    simp only [List.mem_cons] at h
    rcases h with he | h
    · cases he
    · rcases hq _ h with ⟨_, _, he⟩ | ⟨_, _, he⟩ | ⟨_, he⟩ <;> cases he
  · refine ⟨t, tok, claims, u, r, hs, hres, hv, hcl, hid, hrole, hmem, ?_, hrun c rfl⟩
    rw [hrun c rfl] at h
    simpa using h

/-! ## The claims on roles, the identity header and the credential -/

/-- C11. `matchRoles(userRole, acceptRoles)` is true exactly when some element of
`acceptRoles` is equal to `userRole` as a string; equivalently it is false exactly when every
element differs from it. -/
theorem matchRoles_iff_exists_equal (userRole : String) (acceptRoles : List String) :
    (matchRoles userRole acceptRoles = true ↔ ∃ r ∈ acceptRoles, r = userRole) ∧
      (matchRoles userRole acceptRoles = false ↔ ∀ r ∈ acceptRoles, r ≠ userRole) := by
  have h1 : matchRoles userRole acceptRoles = true ↔ ∃ r ∈ acceptRoles, r = userRole := by
    rw [matchRoles_eq_true_iff]
    constructor
    · intro h; exact ⟨userRole, h, rfl⟩
    · rintro ⟨r, hr, rfl⟩; exact hr
  refine ⟨h1, ?_⟩
  rw [← Bool.not_eq_true, h1]
  constructor
  · intro h r hr e; exact h ⟨r, hr, e⟩
  · rintro h ⟨r, hr, e⟩; exact h r hr e

/-- C12. When the role list of the endpoint is empty, `matchRoles` is false for every role,
and no run of the gate, on any request and with any verifier, calls the wrapped handler. -/
theorem empty_roles_deny_all (jwtParse : Verifier) (cfg : epConfig) (rp : RelyingParty)
    (c : Context) (hempty : cfg.Roles = []) :
    (∀ r, matchRoles r cfg.Roles = false) ∧
      ∀ c', Event.next c' ∉ (newEndpointRelyingPartyMw jwtParse cfg rp c).events := by
  refine ⟨fun r => by rw [hempty]; rfl, fun c' h => ?_⟩
  obtain ⟨_, _, _, _, r, _, _, _, _, _, _, hmem, _⟩ := gate_next_inv jwtParse cfg rp c c' h
  rw [hempty] at hmem
  simp at hmem

/-- The editor of the sample scenario is not delegated on an endpoint without roles. -/
theorem empty_roles_deny_all_witness :
    (∀ r, matchRoles r (epConfig.mk []).Roles = false) ∧
      ∀ c', Event.next c' ∉ (newEndpointRelyingPartyMw sampleVerifier (epConfig.mk [])
        sampleRelyingParty (sampleContext (some "Bearer editor-u1"))).events :=
  empty_roles_deny_all sampleVerifier (epConfig.mk []) sampleRelyingParty
    (sampleContext (some "Bearer editor-u1")) rfl

/-- C15. The gate calls `jwt.Parse` on a string `s` exactly when the Authorization header is
`Bearer`, one space, and `s`, with no space in `s`; in particular the string handed to the
verifier is the rest of the header after `Bearer `, unchanged, and there is no call at all
for a header of any other form. -/
theorem verifier_called_iff_bearer (jwtParse : Verifier) (cfg : epConfig) (rp : RelyingParty)
    (c : Context) (s : String) :
    Event.parse s ∈ (newEndpointRelyingPartyMw jwtParse cfg rp c).events ↔
      (c.GetHeader HeaderAuthorization = "Bearer" ++ " " ++ s ∧ ' ' ∉ s.data) := by
  have hiff : stringsSplit (c.GetHeader HeaderAuthorization) ' ' = [TokenType, s] ↔
      (c.GetHeader HeaderAuthorization = "Bearer" ++ " " ++ s ∧ ' ' ∉ s.data) := by
    rw [stringsSplit_eq_pair_iff]
    constructor
    · rintro ⟨h1, _, h3⟩; exact ⟨h1, h3⟩
    · rintro ⟨h1, h3⟩; exact ⟨h1, by decide, h3⟩
  rw [← hiff]
  rcases gate_cases jwtParse cfg rp (c.GetHeader HeaderAuthorization) with
    ⟨hno, evs, hq, hrun⟩ | ⟨t, evs, hs, hq, hrun⟩ | ⟨t, _, _, u, _, hs, _, _, _, _, _, _, hrun⟩
  · rw [hrun c rfl]
    constructor
    · intro h
      rcases hq _ h with ⟨_, _, he⟩ | ⟨_, _, he⟩ | ⟨_, he⟩ <;> cases he
    · intro h; exact absurd h (hno s)
  · rw [hrun c rfl, hs]
    constructor
    · intro h
      simp only [List.mem_cons] at h
      rcases h with he | h
      · cases he; rfl
      · rcases hq _ h with ⟨_, _, he⟩ | ⟨_, _, he⟩ | ⟨_, he⟩ <;> cases he
    · intro h
      simp only [List.cons.injEq, and_true, true_and] at h
      rw [h]; exact List.Mem.head _
  · rw [hrun c rfl, hs]
    constructor
    · intro h
      simp only [List.mem_cons, List.mem_singleton, List.not_mem_nil, or_false] at h
      rcases h with he | he | he
      · cases he; rfl
      · cases he
      · cases he
    · intro h
      simp only [List.cons.injEq, and_true, true_and] at h
      rw [h]; exact List.Mem.head _

/-! ## The claims on invalid tokens and on the factory -/

/-- C16. For an endpoint whose `ExtraConfig` has no entry under the namespace of the package,
the handler returned by the factory is `next(remote, p)` itself, so it makes on every request
the run the original handler makes; nothing is logged and no gate is involved. -/
theorem unconfigured_endpoint_unwrapped {Proxy : Type}
    (getEpConfig : Option AnyValue → Except String epConfig) (jwtParse : Verifier)
    (next : EndpointConfig → Proxy → HandlerFunc) (rp : RelyingParty)
    (remote : EndpointConfig) (p : Proxy)
    (hno : remote.ExtraConfig namespace_ = none) :
    (NewHandlerFactory getEpConfig jwtParse next rp remote p).handler = next remote p ∧
      (∀ c, (NewHandlerFactory getEpConfig jwtParse next rp remote p).handler c =
        next remote p c) ∧
      (NewHandlerFactory getEpConfig jwtParse next rp remote p).errors = [] := by
  simp [NewHandlerFactory, hno]

/-- On an endpoint without the entry, a request without Authorization header is served by the
base handler. -/
theorem unconfigured_endpoint_unwrapped_witness :
    ((NewHandlerFactory sampleGetEpConfig sampleVerifier sampleNext sampleRelyingParty
        (sampleEndpoint none) ()).handler = sampleNext (sampleEndpoint none) () ∧
      (∀ c, (NewHandlerFactory sampleGetEpConfig sampleVerifier sampleNext sampleRelyingParty
        (sampleEndpoint none) ()).handler c = sampleNext (sampleEndpoint none) () c) ∧
      (NewHandlerFactory sampleGetEpConfig sampleVerifier sampleNext sampleRelyingParty
        (sampleEndpoint none) ()).errors = []) ∧
    ((NewHandlerFactory sampleGetEpConfig sampleVerifier sampleNext sampleRelyingParty
        (sampleEndpoint none) ()).handler (sampleContext none)).events =
      [.warn [] "served"] :=
  have h := unconfigured_endpoint_unwrapped sampleGetEpConfig sampleVerifier sampleNext
    sampleRelyingParty (sampleEndpoint none) () (by decide)
  ⟨h, by rw [h.1]; rfl⟩

/-- C17. For an endpoint that has an entry under the namespace of the package: when
`getEpConfig` fails on it, the factory logs the error and returns `next(remote, p)` itself,
so no request is stopped by the gate; when `getEpConfig` gives `cfg`, the factory returns the
gate `newEndpointRelyingPartyMw(cfg, rp)` wrapped around `next(remote, p)`. -/
theorem configured_endpoint_handler {Proxy : Type}
    (getEpConfig : Option AnyValue → Except String epConfig) (jwtParse : Verifier)
    (next : EndpointConfig → Proxy → HandlerFunc) (rp : RelyingParty)
    (remote : EndpointConfig) (p : Proxy) (eCfg : Option AnyValue)
    (hentry : remote.ExtraConfig namespace_ = some eCfg) :
    (∀ err, getEpConfig eCfg = .error err →
        (NewHandlerFactory getEpConfig jwtParse next rp remote p).handler = next remote p ∧
        (NewHandlerFactory getEpConfig jwtParse next rp remote p).errors =
          [("getEpConfig error", err)]) ∧
      (∀ cfg, getEpConfig eCfg = .ok cfg →
        (NewHandlerFactory getEpConfig jwtParse next rp remote p).handler =
          endpointHandler jwtParse cfg rp (next remote p) ∧
        (NewHandlerFactory getEpConfig jwtParse next rp remote p).errors = []) := by
  constructor
  · intro err he
    simp [NewHandlerFactory, hentry, he]
  · intro cfg he
    simp [NewHandlerFactory, hentry, he]

/-- With a block that does not parse, a request without credential is served by the base
handler; with the block that parses, the same request is stopped with 401 and the editor's
request is served after the gate. -/
theorem configured_endpoint_handler_witness :
    ((NewHandlerFactory sampleGetEpConfig sampleVerifier sampleNext sampleRelyingParty
        (sampleEndpoint (some (some (.str "roles")))) ()).handler (sampleContext none)).events =
        [.warn [] "served"] ∧
      (NewHandlerFactory sampleGetEpConfig sampleVerifier sampleNext sampleRelyingParty
        (sampleEndpoint (some (some (.str "roles")))) ()).errors =
        [("getEpConfig error", "invalid roles")] ∧
      ((NewHandlerFactory sampleGetEpConfig sampleVerifier sampleNext sampleRelyingParty
        (sampleEndpoint (some (some (.other "map[roles:[admin editor]]")))) ()).handler
        (sampleContext none)).events =
        [.warn [] "empty user token",
          .abort StatusUnauthorized (newErr invalidToken "token not exists")] ∧
      ((NewHandlerFactory sampleGetEpConfig sampleVerifier sampleNext sampleRelyingParty
        (sampleEndpoint (some (some (.other "map[roles:[admin editor]]")))) ()).handler
        (sampleContext (some "Bearer editor-u1"))).events =
        [.parse "editor-u1", .setHeader HeaderUserID "u1",
          .next ((sampleContext (some "Bearer editor-u1")).SetHeader HeaderUserID "u1"),
          .warn [] "served"] :=
  have hbad := (configured_endpoint_handler sampleGetEpConfig sampleVerifier sampleNext
    sampleRelyingParty (sampleEndpoint (some (some (.str "roles")))) ()
    (some (.str "roles")) (by decide)).1 "invalid roles" rfl
  have hgood := (configured_endpoint_handler sampleGetEpConfig sampleVerifier sampleNext
    sampleRelyingParty (sampleEndpoint (some (some (.other "map[roles:[admin editor]]")))) ()
    (some (.other "map[roles:[admin editor]]")) (by decide)).2 sampleConfig rfl
  ⟨by rw [hbad.1]; rfl, hbad.2, by rw [hgood.1]; rfl, by rw [hgood.1]; rfl⟩

/-! ## The claims on statelessness, the empty credential and the frame -/

theorem getHeader_authorization_setHeader (c : Context) (u : String) :
    (c.SetHeader HeaderUserID u).GetHeader HeaderAuthorization =
      c.GetHeader HeaderAuthorization := by
  have hne : ¬ HeaderAuthorization = HeaderUserID := by decide
  simp [Context.GetHeader, Context.SetHeader, Header.Set, Header.Get, hne]

theorem setHeader_setHeader (c : Context) (k v : String) :
    (c.SetHeader k v).SetHeader k v = c.SetHeader k v := by
  simp only [Context.SetHeader]
  congr 1
  funext x
  by_cases hx : x = k <;> simp [Header.Set, hx]

/-- C19 as stated fails: on the header `Bearer ` the sample run calls the verifier with the
empty credential, and the 401 it ends with carries the verifier's message, not
"token is malformed". -/
theorem bearer_space_reaches_verifier :
    stringsSplit "Bearer " ' ' = ["Bearer", ""] ∧
      (newEndpointRelyingPartyMw sampleVerifier sampleConfig sampleRelyingParty
        (sampleContext (some "Bearer "))).events =
        [.parse "",
          .warn [("error", some "token contains an invalid number of segments")]
            "parse token err",
          .abort StatusUnauthorized
            (newErr invalidToken "token contains an invalid number of segments")] ∧
      ¬ ((∀ s, Event.parse s ∉ (newEndpointRelyingPartyMw sampleVerifier sampleConfig
          sampleRelyingParty (sampleContext (some "Bearer "))).events) ∧
        Event.abort StatusUnauthorized (newErr invalidToken "token is malformed") ∈
          (newEndpointRelyingPartyMw sampleVerifier sampleConfig sampleRelyingParty
            (sampleContext (some "Bearer "))).events) := by
  refine ⟨by decide, rfl, ?_⟩
  rintro ⟨hno, _⟩
  exact hno "" (List.Mem.head _)

/-- C19, amended. The header `Bearer ` splits at its space into exactly two pieces, `Bearer`
and the empty string, so it passes the parser: the gate calls the verifier with the empty
credential, and when the verifier returns an error `e` the gate aborts with status 401 and
the body `newErr(invalidToken, e)`. -/
theorem bearer_space_accepted (jwtParse : Verifier) (cfg : epConfig) (rp : RelyingParty)
    (c : Context) (hhdr : c.GetHeader HeaderAuthorization = "Bearer ") :
    stringsSplit (c.GetHeader HeaderAuthorization) ' ' = ["Bearer", ""] ∧
      Event.parse "" ∈ (newEndpointRelyingPartyMw jwtParse cfg rp c).events ∧
      ∀ e, (jwtParse "" (keyFunc rp)).err = some e →
        newEndpointRelyingPartyMw jwtParse cfg rp c =
          ⟨[.parse "", .warn [("error", some e)] "parse token err",
            .abort StatusUnauthorized (newErr invalidToken e)], c⟩ := by
  have hs : stringsSplit (c.GetHeader HeaderAuthorization) ' ' = [TokenType, ""] := by
    rw [hhdr]; decide
  refine ⟨hs, ?_, fun e he => gate_verifier_error jwtParse cfg rp c "" e hs he⟩
  rcases gate_cases jwtParse cfg rp (c.GetHeader HeaderAuthorization) with
    ⟨hno, _⟩ | ⟨t, evs, hs', _, hrun⟩ | ⟨t, _, _, u, _, hs', _, _, _, _, _, _, hrun⟩
  · exact absurd hs (hno "")
  · rw [hs] at hs'
    simp only [List.cons.injEq, and_true, true_and] at hs'
    rw [hrun c rfl, ← hs']
    exact List.Mem.head _
  · rw [hs] at hs'
    simp only [List.cons.injEq, and_true, true_and] at hs'
    rw [hrun c rfl, ← hs']
    exact List.Mem.head _

/-- The sample run on `Bearer `: the verifier is asked, and its error text is the message of
the 401. -/
theorem bearer_space_accepted_witness :
    (sampleContext (some "Bearer ")).GetHeader HeaderAuthorization = "Bearer " ∧
      stringsSplit ((sampleContext (some "Bearer ")).GetHeader HeaderAuthorization) ' ' =
        ["Bearer", ""] ∧
      Event.parse "" ∈ (newEndpointRelyingPartyMw sampleVerifier sampleConfig
        sampleRelyingParty (sampleContext (some "Bearer "))).events ∧
      newEndpointRelyingPartyMw sampleVerifier sampleConfig sampleRelyingParty
          (sampleContext (some "Bearer ")) =
        ⟨[.parse "",
          .warn [("error", some "token contains an invalid number of segments")]
            "parse token err",
          .abort StatusUnauthorized
            (newErr invalidToken "token contains an invalid number of segments")],
          sampleContext (some "Bearer ")⟩ :=
  have h := bearer_space_accepted sampleVerifier sampleConfig sampleRelyingParty
    (sampleContext (some "Bearer ")) (by decide)
  ⟨by decide, h.1, h.2.1, h.2.2 "token contains an invalid number of segments" (by decide)⟩

/-- C20. The gate changes the request only by setting `User-Id` on the way to the wrapped
handler: a run that aborts (with 401 or 403) calls `Header.Set` not once and leaves the
request as received; a run that calls the wrapped handler passes it a request in which every
header other than `User-Id`, Authorization included, is as received; and every call of
`Header.Set` in any run is on the key `User-Id`. -/
theorem gate_only_sets_user_id (jwtParse : Verifier) (cfg : epConfig) (rp : RelyingParty)
    (c : Context) :
    (∀ s b, Event.abort s b ∈ (newEndpointRelyingPartyMw jwtParse cfg rp c).events →
        (newEndpointRelyingPartyMw jwtParse cfg rp c).request = c ∧
        ∀ k v, Event.setHeader k v ∉ (newEndpointRelyingPartyMw jwtParse cfg rp c).events) ∧
      (∀ c', Event.next c' ∈ (newEndpointRelyingPartyMw jwtParse cfg rp c).events →
        (∀ k, k ≠ HeaderUserID → c'.Header k = c.Header k) ∧
        c'.Header HeaderAuthorization = c.Header HeaderAuthorization ∧
        (newEndpointRelyingPartyMw jwtParse cfg rp c).request = c') ∧
      (∀ k v, Event.setHeader k v ∈ (newEndpointRelyingPartyMw jwtParse cfg rp c).events →
        k = HeaderUserID) := by
  rcases gate_cases jwtParse cfg rp (c.GetHeader HeaderAuthorization) with
    ⟨_, evs, hq, hrun⟩ | ⟨t, evs, _, hq, hrun⟩ | ⟨t, _, _, u, _, _, _, _, _, _, _, _, hrun⟩
  · rw [hrun c rfl]
    have hquiet : ∀ e ∈ evs, (∀ c', e ≠ .next c') ∧ ∀ k v, e ≠ .setHeader k v := by
      intro e he
      rcases hq e he with ⟨_, _, rfl⟩ | ⟨_, _, rfl⟩ | ⟨_, rfl⟩ <;>
        exact ⟨fun _ h => (by cases h), fun _ _ h => (by cases h)⟩
    refine ⟨fun s b _ => ⟨rfl, fun k v h => (hquiet _ h).2 k v rfl⟩,
      fun c' h => absurd rfl ((hquiet _ h).1 c'),
      fun k v h => absurd rfl ((hquiet _ h).2 k v)⟩
  · rw [hrun c rfl]
    have hquiet : ∀ e ∈ Event.parse t :: evs,
        (∀ c', e ≠ .next c') ∧ ∀ k v, e ≠ .setHeader k v := by
      intro e he
      simp only [List.mem_cons] at he
      rcases he with rfl | he
      · exact ⟨fun _ h => (by cases h), fun _ _ h => (by cases h)⟩
      · rcases hq e he with ⟨_, _, rfl⟩ | ⟨_, _, rfl⟩ | ⟨_, rfl⟩ <;>
          exact ⟨fun _ h => (by cases h), fun _ _ h => (by cases h)⟩
    refine ⟨fun s b _ => ⟨rfl, fun k v h => (hquiet _ h).2 k v rfl⟩,
      fun c' h => absurd rfl ((hquiet _ h).1 c'),
      fun k v h => absurd rfl ((hquiet _ h).2 k v)⟩
  · rw [hrun c rfl]
    refine ⟨fun s b h => ?_, fun c' h => ?_, fun k v h => ?_⟩
    · simp at h
    · simp only [List.mem_cons, List.mem_singleton, List.not_mem_nil, or_false] at h
      rcases h with h | h | h
      · cases h
      · cases h
      · cases h
        refine ⟨fun k hk => ?_, ?_, rfl⟩
        · simp [Context.SetHeader, Header.Set, hk]
        · have hne : ¬ HeaderAuthorization = HeaderUserID := by decide
          simp [Context.SetHeader, Header.Set, hne]
    · simp only [List.mem_cons, List.mem_singleton, List.not_mem_nil, or_false] at h
      rcases h with h | h | h
      · cases h
      · cases h; rfl
      · cases h

/-- The refused viewer keeps the request as received; the spoofed request of the editor
reaches the wrapped handler with its `Accept` and Authorization headers as received. -/
theorem gate_only_sets_user_id_witness :
    (newEndpointRelyingPartyMw sampleVerifier sampleConfig sampleRelyingParty
        (sampleContext (some "Bearer viewer-u1"))).request =
        sampleContext (some "Bearer viewer-u1") ∧
      (sampleSpoofedContext.SetHeader HeaderUserID "u1").Header "Accept" =
        some ["text/plain"] ∧
      (sampleSpoofedContext.SetHeader HeaderUserID "u1").Header HeaderAuthorization =
        some ["Bearer editor-u1"] :=
  have hdenied := ((gate_only_sets_user_id sampleVerifier sampleConfig sampleRelyingParty
    (sampleContext (some "Bearer viewer-u1"))).1 StatusForbidden accessDenied
    (List.Mem.tail _ (List.Mem.tail _ (List.Mem.head _)))).1
  have hallowed := (gate_only_sets_user_id sampleVerifier sampleConfig sampleRelyingParty
    sampleSpoofedContext).2.1 (sampleSpoofedContext.SetHeader HeaderUserID "u1")
    (List.Mem.tail _ (List.Mem.tail _ (List.Mem.head _)))
  ⟨hdenied, (hallowed.1 "Accept" (by decide)).trans (by decide),
    hallowed.2.1.trans (by decide)⟩

/-! ## The last event of a run, and the verifier as seen by the gate -/

/-- Every run of the gate is a list of log lines, verifier calls and header settings followed
by one last event: the call of `next`, an abort with one of the bodies of `router.go`, or a
panic; and a panic needs a verifier that returns no error together with a nil token, a token
that is not valid, or claims that are not a claim map. -/
theorem gate_outcome (jwtParse : Verifier) (cfg : epConfig) (rp : RelyingParty) (c : Context) :
    ∃ (pre : List Event) (last : Event),
      (newEndpointRelyingPartyMw jwtParse cfg rp c).events = pre ++ [last] ∧
      (∀ e ∈ pre, (∃ f m, e = .warn f m) ∨ (∃ s, e = .parse s) ∨ ∃ k v, e = .setHeader k v) ∧
      ((∃ c', last = .next c') ∨
        (∃ e, last = .abort StatusUnauthorized (newErr invalidToken e)) ∨
        last = .abort StatusUnauthorized invalidUserIDErr ∨
        last = .abort StatusUnauthorized invalidUserRoleErr ∨
        last = .abort StatusForbidden accessDenied ∨
        ∃ w t, last = .panic w ∧
          stringsSplit (c.GetHeader HeaderAuthorization) ' ' = [TokenType, t] ∧
          (jwtParse t (keyFunc rp)).err = none ∧
          ¬ ∃ tok claims, (jwtParse t (keyFunc rp)).token = some tok ∧ tok.Valid = true ∧
            tok.Claims = .mapClaims claims) := by
  have hpre1 : ∀ (f : List (String × Option String)) (m : String), ∀ e ∈ [Event.warn f m],
      (∃ f m, e = .warn f m) ∨ (∃ s, e = .parse s) ∨ ∃ k v, e = .setHeader k v := by
    intro f m e he
    simp only [List.mem_singleton] at he
    exact Or.inl ⟨_, _, he⟩
  have hpre2 : ∀ (t : String) (f : List (String × Option String)) (m : String),
      ∀ e ∈ [Event.parse t, Event.warn f m],
      (∃ f m, e = .warn f m) ∨ (∃ s, e = .parse s) ∨ ∃ k v, e = .setHeader k v := by
    intro t f m e he
    simp only [List.mem_cons, List.mem_singleton, List.not_mem_nil, or_false] at he
    rcases he with rfl | rfl
    · exact Or.inr (Or.inl ⟨_, rfl⟩)
    · exact Or.inl ⟨_, _, rfl⟩
  by_cases he : c.GetHeader HeaderAuthorization = ""
  · rw [gate_empty jwtParse cfg rp c he]
    exact ⟨[_], _, rfl, hpre1 _ _, Or.inr (Or.inl ⟨_, rfl⟩)⟩
  by_cases hbad : (stringsSplit (c.GetHeader HeaderAuthorization) ' ').length ≠ 2 ∨
      (stringsSplit (c.GetHeader HeaderAuthorization) ' ').getD 0 "" ≠ TokenType
  · rw [gate_malformed jwtParse cfg rp c he hbad]
    exact ⟨[_], _, rfl, hpre1 _ _, Or.inr (Or.inl ⟨_, rfl⟩)⟩
  obtain ⟨t, hs⟩ := split_of_not_malformed _ hbad
  cases hres : jwtParse t (keyFunc rp) with
  | mk otok oerr =>
  cases oerr with
  | some e =>
    rw [gate_verifier_error jwtParse cfg rp c t e hs (by rw [hres])]
    exact ⟨[_, _], _, rfl, hpre2 _ _ _, Or.inr (Or.inl ⟨_, rfl⟩)⟩
  | none =>
  cases otok with
  | none =>
    rw [gate_nil_token jwtParse cfg rp c t hs hres]
    refine ⟨[.parse t], _, rfl, ?_, Or.inr (Or.inr (Or.inr (Or.inr (Or.inr
      ⟨_, t, rfl, hs, by rw [hres], ?_⟩))))⟩
    · intro e he
      simp only [List.mem_singleton] at he
      exact Or.inr (Or.inl ⟨_, he⟩)
    · rintro ⟨tok, claims, htok, _⟩
      rw [hres] at htok
      cases htok
  | some tok =>
  cases hv : tok.Valid with
  | false =>
    rw [gate_not_valid jwtParse cfg rp c t tok hs hres (Or.inl hv)]
    refine ⟨[_, _], _, rfl, hpre2 _ _ _, Or.inr (Or.inr (Or.inr (Or.inr (Or.inr
      ⟨_, t, rfl, hs, by rw [hres], ?_⟩))))⟩
    rintro ⟨tok', claims, htok, hvalid, _⟩
    rw [hres] at htok
    simp only [Option.some.injEq] at htok
    rw [← htok, hv] at hvalid
    cases hvalid
  | true =>
  cases hcl : tok.Claims with
  | otherClaims =>
    rw [gate_not_valid jwtParse cfg rp c t tok hs hres (Or.inr hcl)]
    refine ⟨[_, _], _, rfl, hpre2 _ _ _, Or.inr (Or.inr (Or.inr (Or.inr (Or.inr
      ⟨_, t, rfl, hs, by rw [hres], ?_⟩))))⟩
    rintro ⟨tok', claims, htok, _, hmap⟩
    rw [hres] at htok
    simp only [Option.some.injEq] at htok
    rw [← htok, hcl] at hmap
    cases hmap
  | mapClaims claims =>
  cases hid : assertString (claims "user_id") with
  | none =>
    rw [gate_no_user_id jwtParse cfg rp c t tok claims hs hres hv hcl hid]
    exact ⟨[_, _], _, rfl, hpre2 _ _ _, Or.inr (Or.inr (Or.inl rfl))⟩
  | some u =>
  cases hrole : assertString (claims "user_role") with
  | none =>
    rw [gate_no_user_role jwtParse cfg rp c t tok claims u hs hres hv hcl hid hrole]
    exact ⟨[_, _], _, rfl, hpre2 _ _ _, Or.inr (Or.inr (Or.inr (Or.inl rfl)))⟩
  | some r =>
  cases hm : matchRoles r cfg.Roles with
  | false =>
    rw [gate_denied jwtParse cfg rp c t tok claims u r hs hres hv hcl hid hrole hm]
    exact ⟨[_, _], _, rfl, hpre2 _ _ _, Or.inr (Or.inr (Or.inr (Or.inr (Or.inl rfl))))⟩
  | true =>
    rw [gate_allowed jwtParse cfg rp c t tok claims u r hs hres hv hcl hid hrole hm]
    refine ⟨[.parse t, .setHeader HeaderUserID u], _, rfl, ?_, Or.inl ⟨_, rfl⟩⟩
    intro e he
    simp only [List.mem_cons, List.mem_singleton, List.not_mem_nil, or_false] at he
    rcases he with rfl | rfl
    · exact Or.inr (Or.inl ⟨_, rfl⟩)
    · exact Or.inr (Or.inr ⟨_, _, rfl⟩)

/-- The run of the gate depends on the verifier only through its answer for the credential
of the request. -/
theorem gate_congr_verifier (jwtParse1 jwtParse2 : Verifier) (cfg : epConfig)
    (rp : RelyingParty) (c : Context)
    (hsame : ∀ t, stringsSplit (c.GetHeader HeaderAuthorization) ' ' = [TokenType, t] →
      jwtParse1 t (keyFunc rp) = jwtParse2 t (keyFunc rp)) :
    newEndpointRelyingPartyMw jwtParse1 cfg rp c =
      newEndpointRelyingPartyMw jwtParse2 cfg rp c := by
  by_cases he : c.GetHeader HeaderAuthorization = ""
  · rw [gate_empty jwtParse1 cfg rp c he, gate_empty jwtParse2 cfg rp c he]
  by_cases hbad : (stringsSplit (c.GetHeader HeaderAuthorization) ' ').length ≠ 2 ∨
      (stringsSplit (c.GetHeader HeaderAuthorization) ' ').getD 0 "" ≠ TokenType
  · rw [gate_malformed jwtParse1 cfg rp c he hbad, gate_malformed jwtParse2 cfg rp c he hbad]
  obtain ⟨t, hs⟩ := split_of_not_malformed _ hbad
  have h0 := header_nonempty_of_split _ _ _ _ hs
  simp [newEndpointRelyingPartyMw, h0, hs, hsame t hs]

/-! ## The claims on the outcomes of a run and on the identity forwarded -/

/-- The sample verifier answers as `jwt.Parse` does: when it returns no error, the token is
there, is valid, and has map claims. -/
theorem sampleVerifier_no_error (s : String) (kf : Keyfunc)
    (h : (sampleVerifier s kf).err = none) :
    ∃ tok claims, (sampleVerifier s kf).token = some tok ∧ tok.Valid = true ∧
      tok.Claims = .mapClaims claims := by
  unfold sampleVerifier at h ⊢
  split_ifs at h ⊢ <;> exact ⟨_, _, rfl, rfl, rfl⟩

/-- C4. For every request and every outcome `jwt.Parse` can return (an error with any token,
or no error, in which case it returns a token with `Valid = true` and map claims), the run of
the gate never panics, every abort in it has status 401 or 403, and it consists of log lines,
the verifier call and the header setting followed by exactly one final event: the call of the
wrapped handler, an abort with 401, or an abort with 403. -/
theorem gate_ends_in_next_401_or_403 (jwtParse : Verifier) (cfg : epConfig)
    (rp : RelyingParty) (c : Context)
    (hcontract : ∀ s, (jwtParse s (keyFunc rp)).err = none →
      ∃ tok claims, (jwtParse s (keyFunc rp)).token = some tok ∧ tok.Valid = true ∧
        tok.Claims = .mapClaims claims) :
    (∀ w, Event.panic w ∉ (newEndpointRelyingPartyMw jwtParse cfg rp c).events) ∧
      (∀ s b, Event.abort s b ∈ (newEndpointRelyingPartyMw jwtParse cfg rp c).events →
        s = 401 ∨ s = 403) ∧
      ∃ (pre : List Event) (last : Event),
        (newEndpointRelyingPartyMw jwtParse cfg rp c).events = pre ++ [last] ∧
        (∀ e ∈ pre,
          (∃ f m, e = .warn f m) ∨ (∃ s, e = .parse s) ∨ ∃ k v, e = .setHeader k v) ∧
        ((∃ c', last = .next c') ∨ (∃ b, last = .abort 401 b) ∨ ∃ b, last = .abort 403 b) := by
  obtain ⟨pre, last, hev, hpre, hlast⟩ := gate_outcome jwtParse cfg rp c
  have hlast' : (∃ c', last = .next c') ∨ (∃ b, last = .abort 401 b) ∨
      ∃ b, last = .abort 403 b := by
    rcases hlast with h | ⟨e, h⟩ | h | h | h | ⟨w, t, _, _, herr, hno⟩
    · exact Or.inl h
    · exact Or.inr (Or.inl ⟨_, h⟩)
    · exact Or.inr (Or.inl ⟨_, h⟩)
    · exact Or.inr (Or.inl ⟨_, h⟩)
    · exact Or.inr (Or.inr ⟨_, h⟩)
    · exact absurd (hcontract t herr) hno
  rw [hev]
  refine ⟨?_, ?_, pre, last, rfl, hpre, hlast'⟩
  · intro w hmem
    simp only [List.mem_append, List.mem_singleton] at hmem
    rcases hmem with hmem | hmem
    · rcases hpre _ hmem with ⟨_, _, h⟩ | ⟨_, h⟩ | ⟨_, _, h⟩ <;> cases h
    · rcases hlast' with ⟨_, h⟩ | ⟨_, h⟩ | ⟨_, h⟩ <;> rw [h] at hmem <;> cases hmem
  · intro s b hmem
    simp only [List.mem_append, List.mem_singleton] at hmem
    rcases hmem with hmem | hmem
    · rcases hpre _ hmem with ⟨_, _, h⟩ | ⟨_, h⟩ | ⟨_, _, h⟩ <;> cases h
    · rcases hlast' with ⟨_, h⟩ | ⟨_, h⟩ | ⟨_, h⟩ <;> rw [h] at hmem <;> cases hmem
      · exact Or.inl rfl
      · exact Or.inr rfl

/-- The sample verifier meets the condition, and the run on the sample request of the viewer
ends with one abort, of status 403. -/
theorem gate_ends_in_next_401_or_403_witness :
    (∀ s, (sampleVerifier s (keyFunc sampleRelyingParty)).err = none →
      ∃ tok claims, (sampleVerifier s (keyFunc sampleRelyingParty)).token = some tok ∧
        tok.Valid = true ∧ tok.Claims = .mapClaims claims) ∧
    ((∀ w, Event.panic w ∉ (newEndpointRelyingPartyMw sampleVerifier sampleConfig
        sampleRelyingParty (sampleContext (some "Bearer viewer-u1"))).events) ∧
      (∀ s b, Event.abort s b ∈ (newEndpointRelyingPartyMw sampleVerifier sampleConfig
        sampleRelyingParty (sampleContext (some "Bearer viewer-u1"))).events →
        s = 401 ∨ s = 403) ∧
      ∃ (pre : List Event) (last : Event),
        (newEndpointRelyingPartyMw sampleVerifier sampleConfig sampleRelyingParty
          (sampleContext (some "Bearer viewer-u1"))).events = pre ++ [last] ∧
        (∀ e ∈ pre,
          (∃ f m, e = .warn f m) ∨ (∃ s, e = .parse s) ∨ ∃ k v, e = .setHeader k v) ∧
        ((∃ c', last = .next c') ∨ (∃ b, last = .abort 401 b) ∨ ∃ b, last = .abort 403 b)) :=
  ⟨fun s => sampleVerifier_no_error s _,
    gate_ends_in_next_401_or_403 sampleVerifier sampleConfig sampleRelyingParty
      (sampleContext (some "Bearer viewer-u1")) (fun s => sampleVerifier_no_error s _)⟩

/-- C14. Whenever the gate calls the wrapped handler, the request it passes holds under
`User-Id` exactly one value, the string claim `user_id` of the token that `jwt.Parse`
returned, without error and with `Valid = true`, for the credential of the request, whatever
values the incoming request held under `User-Id`. -/
theorem forwarded_user_id_is_verified (jwtParse : Verifier) (cfg : epConfig)
    (rp : RelyingParty) (c c' : Context)
    (h : Event.next c' ∈ (newEndpointRelyingPartyMw jwtParse cfg rp c).events) :
    ∃ (t : String) (tok : Token) (claims : String → Option AnyValue) (u : String),
      stringsSplit (c.GetHeader HeaderAuthorization) ' ' = [TokenType, t] ∧
      (jwtParse t (keyFunc rp)).err = none ∧
      (jwtParse t (keyFunc rp)).token = some tok ∧
      tok.Valid = true ∧
      tok.Claims = .mapClaims claims ∧
      claims "user_id" = some (.str u) ∧
      c'.Header HeaderUserID = some [u] ∧
      c'.GetHeader HeaderUserID = u := by
  obtain ⟨t, tok, claims, u, r, hs, hres, hv, hcl, hid, _, _, hc', _⟩ :=
    gate_next_inv jwtParse cfg rp c c' h
  refine ⟨t, tok, claims, u, hs, by rw [hres], by rw [hres], hv, hcl, hid, ?_, ?_⟩
  · rw [hc']; simp [Context.SetHeader, Header.Set]
  · rw [hc']; simp [Context.GetHeader, Context.SetHeader, Header.Set, Header.Get]

/-- A request that arrives with `User-Id: root, admin` is forwarded with `User-Id: u1`. -/
theorem forwarded_user_id_is_verified_witness :
    sampleSpoofedContext.Header HeaderUserID = some ["root", "admin"] ∧
      Event.next (sampleSpoofedContext.SetHeader HeaderUserID "u1") ∈
        (newEndpointRelyingPartyMw sampleVerifier sampleConfig sampleRelyingParty
          sampleSpoofedContext).events ∧
      ∃ (t : String) (tok : Token) (claims : String → Option AnyValue) (u : String),
        stringsSplit (sampleSpoofedContext.GetHeader HeaderAuthorization) ' ' =
          [TokenType, t] ∧
        (sampleVerifier t (keyFunc sampleRelyingParty)).err = none ∧
        (sampleVerifier t (keyFunc sampleRelyingParty)).token = some tok ∧
        tok.Valid = true ∧
        tok.Claims = .mapClaims claims ∧
        claims "user_id" = some (.str u) ∧
        (sampleSpoofedContext.SetHeader HeaderUserID "u1").Header HeaderUserID = some [u] ∧
        (sampleSpoofedContext.SetHeader HeaderUserID "u1").GetHeader HeaderUserID = u :=
  have hmem : Event.next (sampleSpoofedContext.SetHeader HeaderUserID "u1") ∈
      (newEndpointRelyingPartyMw sampleVerifier sampleConfig sampleRelyingParty
        sampleSpoofedContext).events :=
    List.Mem.tail _ (List.Mem.tail _ (List.Mem.head _))
  ⟨by decide, hmem, forwarded_user_id_is_verified _ _ _ _ _ hmem⟩

/-! ## The claims on tokens that are not valid and on repeated runs -/

/-- C13 as stated fails: the sample token that decodes (claims `u1`, allowed role `editor`)
but is not valid comes with the verifier's error, and the gate aborts with 401 and kind
`invalidToken` carrying that error; and no run of the gate, whatever the verifier returns,
aborts with a body of kind `invalidTokenClaims`. -/
theorem not_valid_token_gets_invalidToken :
    ((sampleVerifier "expired-u1" (keyFunc sampleRelyingParty)).token.map
        (fun tok => tok.Valid)) = some false ∧
      newEndpointRelyingPartyMw sampleVerifier sampleConfig sampleRelyingParty
          (sampleContext (some "Bearer expired-u1")) =
        ⟨[.parse "expired-u1", .warn [("error", some "Token is expired")] "parse token err",
          .abort StatusUnauthorized (newErr invalidToken "Token is expired")],
          sampleContext (some "Bearer expired-u1")⟩ ∧
      ¬ ∃ (jwtParse : Verifier) (cfg : epConfig) (rp : RelyingParty) (c : Context)
          (s : Nat) (msg : String),
        Event.abort s (newErr invalidTokenClaims msg) ∈
          (newEndpointRelyingPartyMw jwtParse cfg rp c).events := by
  refine ⟨rfl, rfl, ?_⟩
  rintro ⟨jwtParse, cfg, rp, c, s, msg, hmem⟩
  obtain ⟨pre, last, hev, hpre, hlast⟩ := gate_outcome jwtParse cfg rp c
  rw [hev] at hmem
  simp only [List.mem_append, List.mem_singleton] at hmem
  rcases hmem with hmem | hmem
  · rcases hpre _ hmem with ⟨_, _, h⟩ | ⟨_, h⟩ | ⟨_, _, h⟩ <;> cases h
  · rcases hlast with ⟨_, h⟩ | ⟨_, h⟩ | h | h | h | ⟨_, _, h, _⟩ <;>
      rw [h] at hmem <;> cases hmem

/-- C13, amended. `jwt.Parse` returns a token that is not valid, or whose claims are not a
claim map, only together with an error; for every request with such a credential the gate
treats it as a verification failure: it aborts with status 401 and the body
`newErr(invalidToken, e)`, `e` being the error of the verifier, reads no claim, matches no
role, sets no header and does not call the wrapped handler, whatever the claims hold. -/
theorem not_valid_token_rejected (jwtParse : Verifier) (cfg : epConfig) (rp : RelyingParty)
    (c : Context) (t : String) (tok : Token)
    (hcontract : ∀ s, (jwtParse s (keyFunc rp)).err = none →
      ∃ tok claims, (jwtParse s (keyFunc rp)).token = some tok ∧ tok.Valid = true ∧
        tok.Claims = .mapClaims claims)
    (hs : stringsSplit (c.GetHeader HeaderAuthorization) ' ' = [TokenType, t])
    (htok : (jwtParse t (keyFunc rp)).token = some tok)
    (hbad : tok.Valid = false ∨ ∀ m, tok.Claims ≠ .mapClaims m) :
    ∃ e, (jwtParse t (keyFunc rp)).err = some e ∧
      newEndpointRelyingPartyMw jwtParse cfg rp c =
        ⟨[.parse t, .warn [("error", some e)] "parse token err",
          .abort StatusUnauthorized (newErr invalidToken e)], c⟩ ∧
      StatusUnauthorized = 401 ∧
      (∀ c', Event.next c' ∉ (newEndpointRelyingPartyMw jwtParse cfg rp c).events) ∧
      (∀ k v, Event.setHeader k v ∉ (newEndpointRelyingPartyMw jwtParse cfg rp c).events) := by
  cases herr : (jwtParse t (keyFunc rp)).err with
  | none =>
    obtain ⟨tok', claims, htok', hv, hcl⟩ := hcontract t herr
    rw [htok] at htok'
    simp only [Option.some.injEq] at htok'
    subst htok'
    rcases hbad with h | h
    · rw [h] at hv; cases hv
    · exact absurd hcl (h claims)
  | some e =>
    refine ⟨e, rfl, gate_verifier_error jwtParse cfg rp c t e hs herr, rfl, ?_, ?_⟩
    · rw [gate_verifier_error jwtParse cfg rp c t e hs herr]
      simp
    · rw [gate_verifier_error jwtParse cfg rp c t e hs herr]
      simp

/-- The expired sample token, whose claims hold `u1` and the allowed role `editor`, is
refused with the verifier's error. -/
theorem not_valid_token_rejected_witness :
    ∃ e, (sampleVerifier "expired-u1" (keyFunc sampleRelyingParty)).err = some e ∧
      newEndpointRelyingPartyMw sampleVerifier sampleConfig sampleRelyingParty
          (sampleContext (some "Bearer expired-u1")) =
        ⟨[.parse "expired-u1", .warn [("error", some e)] "parse token err",
          .abort StatusUnauthorized (newErr invalidToken e)],
          sampleContext (some "Bearer expired-u1")⟩ ∧
      StatusUnauthorized = 401 ∧
      (∀ c', Event.next c' ∉ (newEndpointRelyingPartyMw sampleVerifier sampleConfig
        sampleRelyingParty (sampleContext (some "Bearer expired-u1"))).events) ∧
      (∀ k v, Event.setHeader k v ∉ (newEndpointRelyingPartyMw sampleVerifier sampleConfig
        sampleRelyingParty (sampleContext (some "Bearer expired-u1"))).events) :=
  not_valid_token_rejected sampleVerifier sampleConfig sampleRelyingParty
    (sampleContext (some "Bearer expired-u1")) "expired-u1"
    (sampleToken "expired-u1" (some (.str "u1")) (some (.str "editor")) false)
    (fun s => sampleVerifier_no_error s _) (by decide) rfl (Or.inl rfl)

/-- C18 as stated fails: the same request, with the same role list and the same secret, is
delegated when the verifier is asked before the expiry of the token and refused with 401 when
it is asked after. -/
theorem same_request_two_decisions :
    (newEndpointRelyingPartyMw (sampleVerifierAt 1) sampleConfig sampleRelyingParty
        (sampleContext (some "Bearer editor-u1"))).events =
        [.parse "editor-u1", .setHeader HeaderUserID "u1",
          .next ((sampleContext (some "Bearer editor-u1")).SetHeader HeaderUserID "u1")] ∧
      (newEndpointRelyingPartyMw (sampleVerifierAt 9) sampleConfig sampleRelyingParty
        (sampleContext (some "Bearer editor-u1"))).events =
        [.parse "editor-u1", .warn [("error", some "Token is expired")] "parse token err",
          .abort StatusUnauthorized (newErr invalidToken "Token is expired")] ∧
      (newEndpointRelyingPartyMw (sampleVerifierAt 1) sampleConfig sampleRelyingParty
        (sampleContext (some "Bearer editor-u1"))).events ≠
        (newEndpointRelyingPartyMw (sampleVerifierAt 9) sampleConfig sampleRelyingParty
          (sampleContext (some "Bearer editor-u1"))).events := by
  have h1 : (newEndpointRelyingPartyMw (sampleVerifierAt 1) sampleConfig sampleRelyingParty
      (sampleContext (some "Bearer editor-u1"))).events =
      [.parse "editor-u1", .setHeader HeaderUserID "u1",
        .next ((sampleContext (some "Bearer editor-u1")).SetHeader HeaderUserID "u1")] := rfl
  have h9 : (newEndpointRelyingPartyMw (sampleVerifierAt 9) sampleConfig sampleRelyingParty
      (sampleContext (some "Bearer editor-u1"))).events =
      [.parse "editor-u1", .warn [("error", some "Token is expired")] "parse token err",
        .abort StatusUnauthorized (newErr invalidToken "Token is expired")] := rfl
  refine ⟨h1, h9, ?_⟩
  rw [h1, h9]
  simp

/-- C18, amended. The decision of the gate is fixed by the Authorization header, the role
list, the secret and the answer of the verifier for the credential: when two runs see the
same answer of `jwt.Parse` for the credential of the header, there are a list of calls and an
optional user id such that every request with that Authorization header gets, in both,
exactly those calls, followed, when there is a user id, by the call of `next` on the request
with `User-Id` set to it.  The gate keeps no state: the later run on the request the first
run leaves behind is the same run. -/
theorem decision_fixed_by_authorization_and_verdict (jwtParse1 jwtParse2 : Verifier)
    (cfg : epConfig) (rp : RelyingParty) (c : Context)
    (hsame : ∀ t, stringsSplit (c.GetHeader HeaderAuthorization) ' ' = [TokenType, t] →
      jwtParse1 t (keyFunc rp) = jwtParse2 t (keyFunc rp)) :
    (∃ (evs : List Event) (d : Option String),
        (∀ c', Event.next c' ∉ evs) ∧
        ∀ c2 : Context, c2.GetHeader HeaderAuthorization = c.GetHeader HeaderAuthorization →
          (newEndpointRelyingPartyMw jwtParse1 cfg rp c2 =
            match d with
            | none => ⟨evs, c2⟩
            | some u =>
              ⟨evs ++ [.next (c2.SetHeader HeaderUserID u)], c2.SetHeader HeaderUserID u⟩) ∧
          newEndpointRelyingPartyMw jwtParse2 cfg rp c2 =
            newEndpointRelyingPartyMw jwtParse1 cfg rp c2) ∧
      newEndpointRelyingPartyMw jwtParse2 cfg rp
          (newEndpointRelyingPartyMw jwtParse1 cfg rp c).request =
        newEndpointRelyingPartyMw jwtParse1 cfg rp c := by
  have hcongr : ∀ c2 : Context,
      c2.GetHeader HeaderAuthorization = c.GetHeader HeaderAuthorization →
      newEndpointRelyingPartyMw jwtParse2 cfg rp c2 =
        newEndpointRelyingPartyMw jwtParse1 cfg rp c2 := by
    intro c2 h2
    exact (gate_congr_verifier jwtParse1 jwtParse2 cfg rp c2 (by rw [h2]; exact hsame)).symm
  rcases gate_cases jwtParse1 cfg rp (c.GetHeader HeaderAuthorization) with
    ⟨_, evs, hq, hrun⟩ | ⟨t, evs, _, hq, hrun⟩ | ⟨t, _, _, u, _, _, _, _, _, _, _, _, hrun⟩
  · refine ⟨⟨evs, none, ?_, fun c2 h2 => ⟨hrun c2 h2, hcongr c2 h2⟩⟩, ?_⟩
    · intro c' h
      rcases hq _ h with ⟨_, _, he⟩ | ⟨_, _, he⟩ | ⟨_, he⟩ <;> cases he
    · rw [hrun c rfl]
      exact (hcongr c rfl).trans (hrun c rfl)
  · refine ⟨⟨.parse t :: evs, none, ?_, fun c2 h2 => ⟨hrun c2 h2, hcongr c2 h2⟩⟩, ?_⟩
    · intro c' h
      simp only [List.mem_cons] at h
      rcases h with he | h
      · cases he
      · rcases hq _ h with ⟨_, _, he⟩ | ⟨_, _, he⟩ | ⟨_, he⟩ <;> cases he
    · rw [hrun c rfl]
      exact (hcongr c rfl).trans (hrun c rfl)
  · refine ⟨⟨[.parse t, .setHeader HeaderUserID u], some u, ?_,
      fun c2 h2 => ⟨hrun c2 h2, hcongr c2 h2⟩⟩, ?_⟩
    · intro c' h
      simp at h
    · rw [hrun c rfl]
      simp only
      rw [hcongr _ (getHeader_authorization_setHeader c u),
        hrun _ (getHeader_authorization_setHeader c u), setHeader_setHeader]

/-- Two runs before the expiry of the sample token see the same answer of the verifier, and
the editor is delegated in both. -/
theorem decision_fixed_by_authorization_and_verdict_witness :
    (∀ t, stringsSplit ((sampleContext (some "Bearer editor-u1")).GetHeader
        HeaderAuthorization) ' ' = [TokenType, t] →
      sampleVerifierAt 1 t (keyFunc sampleRelyingParty) =
        sampleVerifierAt 2 t (keyFunc sampleRelyingParty)) ∧
    newEndpointRelyingPartyMw (sampleVerifierAt 2) sampleConfig sampleRelyingParty
        (newEndpointRelyingPartyMw (sampleVerifierAt 1) sampleConfig sampleRelyingParty
          (sampleContext (some "Bearer editor-u1"))).request =
      newEndpointRelyingPartyMw (sampleVerifierAt 1) sampleConfig sampleRelyingParty
        (sampleContext (some "Bearer editor-u1")) :=
  have hsame : ∀ t, stringsSplit ((sampleContext (some "Bearer editor-u1")).GetHeader
      HeaderAuthorization) ' ' = [TokenType, t] →
      sampleVerifierAt 1 t (keyFunc sampleRelyingParty) =
        sampleVerifierAt 2 t (keyFunc sampleRelyingParty) :=
    fun t _ => by simp [sampleVerifierAt]
  ⟨hsame, (decision_fixed_by_authorization_and_verdict (sampleVerifierAt 1)
    (sampleVerifierAt 2) sampleConfig sampleRelyingParty
    (sampleContext (some "Bearer editor-u1")) hsame).2⟩

end relyingparty
